import Mathlib

/-!
# Hub-side tunnel server (`pkg/tunnel/server/tunnelserver.go`)

A shallow embedding of the HTTP bridge and of the agent-facing `Tunnel` RPC, followed by the
watcher of the cloudevents work store and by the runtime reconciler of the klusterlet operator.

* Go `string` and `[]byte` values are byte sequences (`List UInt8`); `len` is `List.length`.
* A Go `error` is `Option GoError`, `none` being `nil`.
* Collaborators whose code is outside the file (the parser, the tunnel manager, the packet
  connection, the response writer, the client socket) are records of outcomes; every call made
  on them is appended to an event log, so that "is called", "is not called" and "is called before"
  are statements about that log.
-/

namespace OCM.TunnelServer

/-! ## Data model -/

/-- Go `[]byte`. -/
abbrev Bytes := List UInt8

/-- Go `string`: a sequence of bytes. -/
abbrev GoString := List UInt8

/-- The bytes of a Go string literal (Go source text is UTF-8). -/
def goStr (s : String) : GoString := s.toUTF8.data.toList

/-- The verb `%d` of `fmt.Sprintf`: decimal digits, with a leading minus sign when negative. -/
def fmtInt (i : Int) : GoString := goStr (toString i)

/-- Go error values met in the file. -/
inductive GoError where
  /-- The sentinel `io.EOF`. -/
  | EOF
  /-- The value of `fmt.Errorf` for a format without `%w`; `msg` is the formatted text. -/
  | errorf (msg : GoString)
  /-- The value of `fmt.Errorf("<msg>%w", cause)`. -/
  | wrapf (msg : GoString) (cause : GoError)
  /-- An error produced by a collaborator, with its text. -/
  | foreign (msg : GoString)
  deriving DecidableEq, Repr

/-- The method `Error()` of an error value. -/
def GoError.Error : GoError → GoString
  | .EOF => goStr "EOF"
  | .errorf msg => msg
  | .wrapf msg cause => msg ++ cause.Error
  | .foreign msg => msg

/-- Modelled from the spec: the enum `v1.ControlCode` of the package `pkg/tunnel/api/v1`, which
is not part of the sources at hand; the spec gives it the two codes `DATA` and `ERROR`. -/
inductive ControlCode where
  | DATA
  | ERROR
  deriving DecidableEq, Repr

/-- Modelled from the spec: the message `v1.Packet` of the package `pkg/tunnel/api/v1`, which is
not part of the sources at hand: `connectionId (int64)`, `code`, `data (bytes)`,
`errorMessage (string)`, `targetAddress (string, optional)`.  The defaults are the Go zero
values, which a composite literal gives to the fields it does not name. -/
structure Packet where
  ConnId : Int := 0
  Code : ControlCode := ControlCode.DATA
  Data : Bytes := []
  ErrorMessage : GoString := []
  TargetAddress : GoString := []
  deriving DecidableEq, Repr

/-! ## `forwardAgentToClient` -/

/-- The response text that `forwardAgentToClient` builds for an `ERROR` packet (the local
`errorResponse`), as the source concatenates it. -/
def errorResponse (packet : Packet) : GoString :=
  goStr "HTTP/1.1 502 Bad Gateway\r\n" ++
    goStr "Content-Type: text/plain\r\n" ++
    goStr "Content-Length: " ++ fmtInt (packet.ErrorMessage.length : Nat) ++ goStr "\r\n" ++
    goStr "Connection: close\r\n" ++
    goStr "\r\n" ++
    packet.ErrorMessage

/-- The loop of `userServerHTTPHandler.forwardAgentToClient`.

* `writeErr k` is the error returned by the `k`-th call of `clientConn.Write` (counted from 0).
* The list argument is what `<-pc.Recv()` delivers, in order; its end is the nil packet of the
  closed channel.
* `written` is the log of the byte slices handed to `clientConn.Write` so far.

The result is the log of `Write` calls at return and the returned error. -/
def forwardAgentToClient (writeErr : Nat → Option GoError) :
    List Packet → List Bytes → List Bytes × Option GoError
  | [], written => (written, some GoError.EOF)
  | packet :: rest, written =>
    if packet.Code = ControlCode.ERROR then
      -- the result of this Write is only logged
      (written ++ [errorResponse packet],
        some (GoError.errorf (goStr "agent error: " ++ packet.ErrorMessage)))
    else if packet.Data.length > 0 then
      match writeErr written.length with
      | some err => (written ++ [packet.Data], some err)
      | none => forwardAgentToClient writeErr rest (written ++ [packet.Data])
    else
      forwardAgentToClient writeErr rest written

/-- The payloads that the loop forwards for a run of packets: the non-empty `Data` fields. -/
def payloads (ps : List Packet) : List Bytes :=
  (ps.filter (fun p => decide (p.Data.length > 0))).map (fun p => p.Data)

/-! ## Collaborators of the HTTP bridge -/

/-- Go `time.Duration`: a number of nanoseconds. -/
abbrev Duration := Int

/-- Go `time.Second`. -/
def Second : Duration := 1000000000

/-- Go `context.Context`, as far as the file builds contexts: a context is the background
context or is derived from a parent, by `WithCancel` or by `WithTimeout` with its duration. -/
inductive Context where
  | Background
  | WithCancel (parent : Context)
  | WithTimeout (parent : Context) (timeout : Duration)
  deriving DecidableEq, Repr

/-- The timeouts that a context carries: one for each `WithTimeout` on the way to the root,
innermost first.  `ctx.Done()` fires when any of them elapses. -/
def Context.timeouts : Context → List Duration
  | .Background => []
  | .WithCancel parent => parent.timeouts
  | .WithTimeout parent timeout => timeout :: parent.timeouts

/-- Go `http.Header`, a `map[string][]string`, as the list of its entries in the order in which
`range` visits them. -/
abbrev Header := List (GoString × List GoString)

/-- Go `http.Header.Get`: the first value stored under the key, or the empty string.  (The
key is canonicalised first; the only key the file asks for, `Host`, is canonical.) -/
def Header.Get (h : Header) (key : GoString) : GoString :=
  match h.lookup key with
  | some (v :: _) => v
  | _ => []

/-- The parts of `*http.Request` that the bridge reads. -/
structure Request where
  /-- The field `r.Method`. -/
  Method : GoString
  /-- The field `r.URL.Path`. -/
  Path : GoString
  /-- The value of `r.URL.RequestURI()`. -/
  RequestURI : GoString
  ProtoMajor : Int
  ProtoMinor : Int
  Header : Header
  Host : GoString
  /-- The field `r.Body`: `none` is a nil body, otherwise the pair returned by
  `io.ReadAll(r.Body)`. -/
  Body : Option (Bytes × Option GoError)
  /-- The value of `r.Context()`. -/
  Context : Context

/-- Status codes of `net/http`. -/
def StatusBadRequest : Nat := 400
def StatusInternalServerError : Nat := 500
def StatusBadGateway : Nat := 502
def StatusServiceUnavailable : Nat := 503

/-- A call made by `ServeHTTP` (or by a function it calls) on one of its collaborators. -/
inductive Event where
  /-- The call `h.tunnelManager.GetTunnel(clusterName)`. -/
  | GetTunnel (clusterName : GoString)
  /-- The call `tun.NewPacketConn(ctx)`. -/
  | NewPacketConn (ctx : Context)
  /-- The call `http.Error(w, msg, code)`: the response with status `code`. -/
  | Error (msg : GoString) (code : Nat)
  /-- The call `pc.Send(packet)`. -/
  | Send (packet : Packet)
  /-- The call `hijacker.Hijack()`. -/
  | Hijack
  /-- The call `h.forwardTraffic(ctx, clientConn, pc)`, `connId` being `pc.ID()`. -/
  | forwardTraffic (ctx : Context) (connId : Int)
  /-- The deferred call `clientConn.Close()`. -/
  | clientConnClose
  /-- The deferred call `pc.Close(nil)`, `connId` being `pc.ID()`. -/
  | Close (connId : Int)
  /-- The deferred call `cancel()` of the context built by `context.WithTimeout`. -/
  | cancel
  deriving DecidableEq, Repr

/-- The packets handed to `Send` in a log, in order. -/
def sentPackets : List Event → List Packet
  | [] => []
  | Event.Send packet :: tr => packet :: sentPackets tr
  | _ :: tr => sentPackets tr

/-- The status codes of the responses written with `http.Error` in a log, in order. -/
def statusCodes : List Event → List Nat
  | [] => []
  | Event.Error _ code :: tr => code :: statusCodes tr
  | _ :: tr => statusCodes tr

/-- The number of `pc.Close` calls on the connection `connId` in a log. -/
def closeCount (connId : Int) (tr : List Event) : Nat :=
  tr.count (Event.Close connId)

/-- Whether an event is a call of `GetTunnel`. -/
def Event.isGetTunnel : Event → Bool
  | .GetTunnel _ => true
  | _ => false

/-- Whether an event is a call of `NewPacketConn`. -/
def Event.isNewPacketConn : Event → Bool
  | .NewPacketConn _ => true
  | _ => false

/-- Whether an event is a call of `Send`. -/
def Event.isSend : Event → Bool
  | .Send _ => true
  | _ => false

/-- Whether an event is a call of `Hijack`. -/
def Event.isHijack : Event → Bool
  | .Hijack => true
  | _ => false

/-- Whether an event is a call of `pc.Close`. -/
def Event.isClose : Event → Bool
  | .Close _ => true
  | _ => false

/-- The packet connection (`*packetConnection`, seen through `packetSender`): its identifier
and, for the `k`-th `Send` of a run (counted from 0), the error that `Send` returns. -/
structure PacketConn where
  ID : Int
  sendErr : Nat → Packet → Option GoError

/-- The method `pc.Send(packet)`: the call is logged, and its result is that of the next `Send`
of the run. -/
def PacketConn.Send (pc : PacketConn) (packet : Packet) (tr : List Event) :
    Option GoError × List Event :=
  (pc.sendErr (sentPackets tr).length packet, tr ++ [Event.Send packet])

/-- The tunnel (`*Tunnel`) as `ServeHTTP` uses it: the result of `tun.NewPacketConn(ctx)`. -/
structure Tun where
  NewPacketConn : Context → Except GoError PacketConn

/-- The `http.Hijacker` side of a response writer: the error returned by `Hijack()`. -/
structure Hijacker where
  Hijack : Option GoError

/-- The response writer `w`: `Hijacker` is the result of the assertion `w.(http.Hijacker)`,
`none` when the writer does not support hijacking. -/
structure ResponseWriter where
  Hijacker : Option Hijacker

/-- The handler `userServerHTTPHandler`: the results of `h.parser.ParseClusterName(r)` and of
`h.tunnelManager.GetTunnel(clusterName)`. -/
structure userServerHTTPHandler where
  ParseClusterName : Request → Except GoError GoString
  GetTunnel : GoString → Option Tun

/-! ## `sendInitialHTTPRequest` -/

/-- The header lines appended by the nested `range` loops over `r.Header`: one line
`name: value\r\n` for every value of every entry. -/
def appendHeaderLines (requestData : Bytes) (header : Header) : Bytes :=
  header.foldl
    (fun acc entry =>
      entry.2.foldl (fun acc value => acc ++ (entry.1 ++ goStr ": " ++ value ++ goStr "\r\n")) acc)
    requestData

/-- The method `userServerHTTPHandler.sendInitialHTTPRequest(pc, r)`, on the log `tr`. -/
def sendInitialHTTPRequest (pc : PacketConn) (r : Request) (tr : List Event) :
    Option GoError × List Event :=
  let requestData : Bytes := []
  let httpVersion : GoString :=
    if r.ProtoMajor ≠ 0 ∨ r.ProtoMinor ≠ 0 then
      goStr "HTTP/" ++ fmtInt r.ProtoMajor ++ goStr "." ++ fmtInt r.ProtoMinor
    else goStr "HTTP/1.1"
  let requestLine : GoString :=
    r.Method ++ goStr " " ++ r.RequestURI ++ goStr " " ++ httpVersion ++ goStr "\r\n"
  let requestData := requestData ++ requestLine
  let requestData :=
    if r.Header.Get (goStr "Host") = [] then
      requestData ++ (goStr "Host: " ++ r.Host ++ goStr "\r\n")
    else requestData
  let requestData := appendHeaderLines requestData r.Header
  let requestData := requestData ++ goStr "\r\n"
  match r.Body with
  | some (_, some err) =>
    (some (GoError.wrapf (goStr "failed to read request body: ") err), tr)
  | some (bodyBytes, none) =>
    pc.Send { ConnId := pc.ID, Code := ControlCode.DATA, Data := requestData ++ bodyBytes } tr
  | none =>
    pc.Send { ConnId := pc.ID, Code := ControlCode.DATA, Data := requestData } tr

/-! ## `ServeHTTP` -/

/-- The method `userServerHTTPHandler.ServeHTTP(w, r)`: the log of the calls it makes, in order.
Deferred calls run at return, last deferred first.  Logging is left out. -/
def ServeHTTP (h : userServerHTTPHandler) (w : ResponseWriter) (r : Request) : List Event :=
  match h.ParseClusterName r with
  | .error _ =>
    [Event.Error
      (goStr "Failed to parse cluster name and target address from request, path:" ++ r.Path)
      StatusBadRequest]
  | .ok clusterName =>
  let ctx := Context.WithTimeout r.Context (30 * Second)
  let deferCancel (tr : List Event) : List Event := tr ++ [Event.cancel]
  let tr1 : List Event := [Event.GetTunnel clusterName]
  match h.GetTunnel clusterName with
  | none =>
    deferCancel (tr1 ++ [Event.Error (goStr "Cluster " ++ clusterName ++ goStr " not available")
      StatusServiceUnavailable])
  | some tun =>
  let tr2 := tr1 ++ [Event.NewPacketConn ctx]
  match tun.NewPacketConn ctx with
  | .error err =>
    deferCancel (tr2 ++ [Event.Error
      (goStr "Cluster " ++ clusterName ++ goStr " not available: " ++ err.Error)
      StatusServiceUnavailable])
  | .ok pc =>
  let deferClose (tr : List Event) : List Event := deferCancel (tr ++ [Event.Close pc.ID])
  match w.Hijacker with
  | none =>
    deferClose (tr2 ++ [Event.Error (goStr "HTTP tunneling not supported")
      StatusInternalServerError])
  | some hijacker =>
  let initialPacket : Packet := { ConnId := pc.ID, Code := ControlCode.DATA, Data := [] }
  match pc.Send initialPacket tr2 with
  | (some _, tr3) =>
    deferClose (tr3 ++ [Event.Error (goStr "Failed to establish tunnel") StatusBadGateway])
  | (none, tr3) =>
  match sendInitialHTTPRequest pc r tr3 with
  | (some _, tr4) =>
    deferClose (tr4 ++ [Event.Error (goStr "Failed to establish tunnel") StatusBadGateway])
  | (none, tr4) =>
  let tr5 := tr4 ++ [Event.Hijack]
  match hijacker.Hijack with
  | some _ => deferClose tr5
  | none =>
  let deferClientConnClose (tr : List Event) : List Event :=
    deferClose (tr ++ [Event.clientConnClose])
  deferClientConnClose (tr5 ++ [Event.forwardTraffic ctx pc.ID])

/-! ## The `Tunnel` RPC -/

/-- Go `metadata.MD`, a `map[string][]string`. -/
abbrev MD := List (GoString × List GoString)

/-- Go `metadata.MD.Get`: the values stored under the key, none when the key is absent.  (The
key is lower-cased first; the only key the file asks for, `cluster-name`, is lower case.) -/
def MD.Get (md : MD) (k : GoString) : List GoString :=
  (md.lookup k).getD []

/-- The stream `v1.TunnelService_TunnelServer` of one agent: its context and the result of
`metadata.FromIncomingContext` on it, `none` when there is no metadata. -/
structure TunnelStream where
  Context : Context
  FromIncomingContext : Option MD

/-- The tunnel returned by `NewTunnel`, over a registry of type `σ`: its identifier and the
method `Serve`, which blocks until the tunnel ends; the registry may change meanwhile. -/
structure Conn (σ ι : Type) where
  ID : ι
  Serve : σ → Option GoError × σ

/-- The `TunnelManager`, whose code is outside the file, over a registry of type `σ`:
`NewTunnel(ctx, clusterName, stream)` and `RemoveTunnel(clusterName, id)`, each from the
registry as it is to the registry as the call leaves it. -/
structure TunnelManager (σ ι : Type) where
  NewTunnel : σ → Context → GoString → TunnelStream → Except GoError (Conn σ ι) × σ
  RemoveTunnel : σ → GoString → ι → σ

/-- A call made by `TunnelServer.Tunnel` on the tunnel manager or on the tunnel. -/
inductive RPCEvent (ι : Type) where
  | NewTunnel (clusterName : GoString)
  | Serve
  | RemoveTunnel (clusterName : GoString) (id : ι)
  deriving DecidableEq, Repr

/-- The method `TunnelServer.Tunnel(stream)`, from the registry `reg`: the returned error, the
registry at return and the log of calls. -/
def Tunnel {σ ι : Type} (tunnelManager : TunnelManager σ ι) (stream : TunnelStream) (reg : σ) :
    Option GoError × σ × List (RPCEvent ι) :=
  match stream.FromIncomingContext with
  | none => (some (GoError.errorf (goStr "no metadata found in request")), reg, [])
  | some md =>
  match md.Get (goStr "cluster-name") with
  | [] => (some (GoError.errorf (goStr "cluster-name not found in metadata")), reg, [])
  | clusterName :: _ =>
  match tunnelManager.NewTunnel reg stream.Context clusterName stream with
  | (.error err, reg1) =>
    (some (GoError.wrapf (goStr "failed to create tunnel: ") err), reg1,
      [RPCEvent.NewTunnel clusterName])
  | (.ok conn, reg1) =>
  let (err, reg2) := conn.Serve reg1
  let reg3 := tunnelManager.RemoveTunnel reg2 clusterName conn.ID
  (err, reg3,
    [RPCEvent.NewTunnel clusterName, RPCEvent.Serve, RPCEvent.RemoveTunnel clusterName conn.ID])

/-! ## The serialized request, part by part

What the handshake is to carry, written down independently of the loop structure of
`sendInitialHTTPRequest`, to compare with the bytes that function builds. -/

/-- The version text of the request line: the caller's own version, `HTTP/1.1` standing in
only for a request that has neither a major nor a minor version. -/
def httpVersion (r : Request) : GoString :=
  if r.ProtoMajor = 0 ∧ r.ProtoMinor = 0 then goStr "HTTP/1.1"
  else goStr "HTTP/" ++ fmtInt r.ProtoMajor ++ goStr "." ++ fmtInt r.ProtoMinor

/-- The request line `<Method> <RequestURI> <version>\r\n`. -/
def requestLine (r : Request) : GoString :=
  r.Method ++ goStr " " ++ r.RequestURI ++ goStr " " ++ httpVersion r ++ goStr "\r\n"

/-- The line `Host: <r.Host>\r\n`, present when `r.Header.Get("Host")` is empty. -/
def hostLine (r : Request) : GoString :=
  if r.Header.Get (goStr "Host") = [] then goStr "Host: " ++ r.Host ++ goStr "\r\n" else []

/-- One line `name: value\r\n` for every value of one header entry, in order. -/
def valueLines (name : GoString) : List GoString → Bytes
  | [] => []
  | value :: values => (name ++ goStr ": " ++ value ++ goStr "\r\n") ++ valueLines name values

/-- The lines of all header entries, in order. -/
def headerLines : Header → Bytes
  | [] => []
  | entry :: rest => valueLines entry.1 entry.2 ++ headerLines rest

/-- The bytes of the request body, none for a nil body. -/
def requestBody (r : Request) : Bytes :=
  match r.Body with
  | some (bodyBytes, _) => bodyBytes
  | none => []

/-- The fully serialized HTTP request: request line, headers, the empty line and the body. -/
def serializedRequest (r : Request) : Bytes :=
  requestLine r ++ hostLine r ++ headerLines r.Header ++ goStr "\r\n" ++ requestBody r

/-- The contexts handed to `forwardTraffic` in a log, in order. -/
def forwardContexts : List Event → List Context
  | [] => []
  | Event.forwardTraffic ctx _ :: tr => ctx :: forwardContexts tr
  | _ :: tr => forwardContexts tr

/-! ## Concrete inputs -/

/-- A request `GET /api/v1/pods?watch=1 HTTP/1.0` with one header and a two-byte body. -/
def exampleRequest : Request where
  Method := goStr "GET"
  Path := goStr "/api/v1/pods"
  RequestURI := goStr "/api/v1/pods?watch=1"
  ProtoMajor := 1
  ProtoMinor := 0
  Header := [(goStr "Accept", [goStr "*/*"])]
  Host := goStr "hub.example"
  Body := some (goStr "hi", none)
  Context := Context.Background

/-- A packet connection with identifier 7 on which every `Send` succeeds. -/
def examplePacketConn : PacketConn where
  ID := 7
  sendErr := fun _ _ => none

/-- A tunnel on which `NewPacketConn` succeeds. -/
def exampleTun : Tun where
  NewPacketConn := fun _ => Except.ok examplePacketConn

/-- A tunnel on which `NewPacketConn` fails. -/
def brokenTun : Tun where
  NewPacketConn := fun _ => Except.error (GoError.foreign (goStr "tunnel closed"))

/-- A handler whose parser resolves every request to `cluster1`, the one cluster that has a
tunnel. -/
def exampleHandler : userServerHTTPHandler where
  ParseClusterName := fun _ => Except.ok (goStr "cluster1")
  GetTunnel := fun clusterName => if clusterName = goStr "cluster1" then some exampleTun else none

/-- A handler whose parser resolves every request to `unknown-cluster`, which has no tunnel. -/
def unknownClusterHandler : userServerHTTPHandler where
  ParseClusterName := fun _ => Except.ok (goStr "unknown-cluster")
  GetTunnel := fun clusterName => if clusterName = goStr "cluster1" then some exampleTun else none

/-- A handler whose parser fails on every request. -/
def failingParserHandler : userServerHTTPHandler where
  ParseClusterName := fun _ => Except.error (GoError.foreign (goStr "no cluster in path"))
  GetTunnel := fun clusterName => if clusterName = goStr "cluster1" then some exampleTun else none

/-- A response writer that supports hijacking, `Hijack` succeeding. -/
def hijackableWriter : ResponseWriter where
  Hijacker := some { Hijack := none }

/-- A response writer that does not support hijacking. -/
def plainWriter : ResponseWriter where
  Hijacker := none

/-- A `DATA` packet carrying the one byte `a`. -/
def dataPacket : Packet := { ConnId := 7, Code := ControlCode.DATA, Data := goStr "a" }

/-- A `DATA` packet with an empty payload. -/
def emptyPacket : Packet := { ConnId := 7, Code := ControlCode.DATA, Data := [] }

/-- An `ERROR` packet with the message `upstream unreachable`. -/
def errorPacket : Packet :=
  { ConnId := 7, Code := ControlCode.ERROR, ErrorMessage := goStr "upstream unreachable" }

/-- A tunnel manager over a registry that lists the registered cluster names: `NewTunnel` adds
the name and returns a tunnel with identifier 1 whose `Serve` ends cleanly, `RemoveTunnel` erases
the name. -/
def exampleTunnelManager : TunnelManager (List GoString) Nat where
  NewTunnel := fun reg _ clusterName _ =>
    (Except.ok { ID := 1, Serve := fun reg1 => (none, reg1) }, reg ++ [clusterName])
  RemoveTunnel := fun reg clusterName _ => reg.erase clusterName

/-- An agent stream whose metadata holds no `cluster-name`. -/
def anonymousStream : TunnelStream where
  Context := Context.Background
  FromIncomingContext := some [(goStr "user-agent", [goStr "grpc-go"])]

/-- A response writer that supports hijacking, `Hijack` failing. -/
def failingHijackWriter : ResponseWriter where
  Hijacker := some { Hijack := some (GoError.foreign (goStr "connection already hijacked")) }

/-- A packet connection with identifier 7 on which every `Send` fails. -/
def closedPacketConn : PacketConn where
  ID := 7
  sendErr := fun _ _ => some (GoError.foreign (goStr "stream closed"))

/-- An agent stream whose metadata names two clusters, `cluster1` first. -/
def namedStream : TunnelStream where
  Context := Context.Background
  FromIncomingContext := some [(goStr "cluster-name", [goStr "cluster1", goStr "cluster2"])]

/-! ## `forwardClientToAgent` -/

/-- The length of the local `buffer` of `forwardClientToAgent`, `32*1024`. -/
def bufferSize : Nat := 32 * 1024

/-- The loop of `userServerHTTPHandler.forwardClientToAgent`, on the log `tr`.

The list argument holds the results of the successive calls `clientConn.Read(buffer)`: the
bytes `buffer[:n]` that the call left in the buffer and the error it returned.  Its end is the
end of the stream, where `Read` returns `0, io.EOF`. -/
def forwardClientToAgent (pc : PacketConn) :
    List (Bytes × Option GoError) → List Event → Option GoError × List Event
  | [], tr => (some GoError.EOF, tr)
  | (_, some err) :: _, tr => (some err, tr)
  | (data, none) :: rest, tr =>
    if data.length > 0 then
      match pc.Send { ConnId := pc.ID, Code := ControlCode.DATA, Data := data } tr with
      | (some err, tr1) => (some err, tr1)
      | (none, tr1) => forwardClientToAgent pc rest tr1
    else
      forwardClientToAgent pc rest tr

/-- The concatenation of byte slices, in order. -/
def concatBytes : List Bytes → Bytes
  | [] => []
  | b :: bs => b ++ concatBytes bs

/-- All the bytes that a sequence of `Read` results returned, up to and including the first
result that carries an error. -/
def bytesRead : List (Bytes × Option GoError) → Bytes
  | [] => []
  | (data, some _) :: _ => data
  | (data, none) :: rest => data ++ bytesRead rest

/-- The bytes of the `Read` results that come before the first result carrying an error. -/
def bytesReadBeforeError : List (Bytes × Option GoError) → Bytes
  | [] => []
  | (_, some _) :: _ => []
  | (data, none) :: rest => data ++ bytesReadBeforeError rest

/-! ## The goroutines of `forwardTraffic` -/

/-- How the call of a forwarding function inside its goroutine ends: it returns its `error`,
or it panics with a value (given by its text). -/
inductive TaskOutcome where
  | returned (err : Option GoError)
  | panicked (value : GoString)
  deriving DecidableEq, Repr

/-- What a goroutine of `forwardTraffic` does besides forwarding, and what its `select` does. -/
inductive TaskEvent where
  /-- The send `errChan <- err`; the channel has room for both goroutines. -/
  | errChanSend (err : Option GoError)
  /-- The call `klog.ErrorS` of the deferred `recover` handler. -/
  | logPanic (err : GoError)
  /-- The case `err := <-errChan` of the `select`; `logged` tells whether the case logs, that
  is whether `err != nil && err != io.EOF`. -/
  | selectErrChan (err : Option GoError) (logged : Bool)
  /-- The case `<-ctx.Done()` of the `select`. -/
  | selectCtxDone
  deriving DecidableEq, Repr

/-- One goroutine of `forwardTraffic`: `defer func() { if r := recover(); r != nil { log } }()`
followed by `errChan <- task()`.  `direction` is `client->agent` or `agent->client`. -/
def forwardingGoroutine (direction : GoString) (task : TaskOutcome) : List TaskEvent :=
  match task with
  | TaskOutcome.returned err => [TaskEvent.errChanSend err]
  | TaskOutcome.panicked value =>
    [TaskEvent.logPanic
      (GoError.errorf (goStr "panic in " ++ direction ++ goStr " forwarding: " ++ value))]

/-- The two goroutines that `forwardTraffic` starts, the events of the client-to-agent one
listed first. -/
def forwardTrafficGoroutines (clientToAgent agentToClient : TaskOutcome) : List TaskEvent :=
  forwardingGoroutine (goStr "client->agent") clientToAgent ++
    forwardingGoroutine (goStr "agent->client") agentToClient

/-- The values delivered on `errChan`. -/
def errChanValues : List TaskEvent → List (Option GoError)
  | [] => []
  | TaskEvent.errChanSend err :: es => err :: errChanValues es
  | _ :: es => errChanValues es

/-- The values that the `select` of `forwardTraffic` receives from `errChan`. -/
def selectedErrors : List TaskEvent → List (Option GoError)
  | [] => []
  | TaskEvent.selectErrChan err _ :: es => err :: selectedErrors es
  | _ :: es => selectedErrors es

/-- What happens next in a run of `forwardTraffic`, in the order in which the scheduler lets it
happen: the call of a forwarding function inside its goroutine ends, or `ctx.Done()` becomes
ready.  A forwarding function that never ends has no step. -/
inductive ScheduleStep where
  | clientToAgentEnds
  | agentToClientEnds
  | ctxDone
  deriving DecidableEq, Repr

/-- The state of a run of `forwardTraffic`: which goroutines have ended, and whether the
`select` has taken a case.  As long as it has not, `errChan` is empty. -/
structure ForwardTrafficState where
  clientToAgentEnded : Bool
  agentToClientEnded : Bool
  selected : Bool
  deriving DecidableEq, Repr

/-- The end of a goroutine of `forwardTraffic` whose forwarding function ended with `task`:
the events of the goroutine, followed by the case `err := <-errChan` of the `select` when a
value has been sent and the `select` is still waiting; and whether the `select` has taken a
case afterwards. -/
def goroutineEnds (direction : GoString) (task : TaskOutcome) (selected : Bool) :
    Bool × List TaskEvent :=
  match task with
  | TaskOutcome.returned err =>
    if selected then (true, forwardingGoroutine direction task)
    else
      (true, forwardingGoroutine direction task ++
        [TaskEvent.selectErrChan err (decide (err ≠ none ∧ err ≠ some GoError.EOF))])
  | TaskOutcome.panicked _ => (selected, forwardingGoroutine direction task)

/-- One step of a run of `forwardTraffic`. -/
def forwardTrafficStep (clientToAgent agentToClient : TaskOutcome) (s : ForwardTrafficState) :
    ScheduleStep → ForwardTrafficState × List TaskEvent
  | ScheduleStep.clientToAgentEnds =>
    if s.clientToAgentEnded then (s, [])
    else
      ({ s with
          clientToAgentEnded := true
          selected := (goroutineEnds (goStr "client->agent") clientToAgent s.selected).1 },
        (goroutineEnds (goStr "client->agent") clientToAgent s.selected).2)
  | ScheduleStep.agentToClientEnds =>
    if s.agentToClientEnded then (s, [])
    else
      ({ s with
          agentToClientEnded := true
          selected := (goroutineEnds (goStr "agent->client") agentToClient s.selected).1 },
        (goroutineEnds (goStr "agent->client") agentToClient s.selected).2)
  | ScheduleStep.ctxDone =>
    if s.selected then (s, []) else ({ s with selected := true }, [TaskEvent.selectCtxDone])

/-- A run of `forwardTraffic` from the state `s`. -/
def forwardTrafficFrom (clientToAgent agentToClient : TaskOutcome) :
    ForwardTrafficState → List ScheduleStep → List TaskEvent
  | _, [] => []
  | s, step :: rest =>
    (forwardTrafficStep clientToAgent agentToClient s step).2 ++
      forwardTrafficFrom clientToAgent agentToClient
        (forwardTrafficStep clientToAgent agentToClient s step).1 rest

/-- The function `forwardTraffic` (lines 194 to 229): the two goroutines are started, and the
`select` waits for the first value on `errChan` or for `ctx.Done()`.  The forwarding functions
are given by how their calls end, and the scheduler by the order of the steps. -/
def forwardTraffic (clientToAgent agentToClient : TaskOutcome) (schedule : List ScheduleStep) :
    List TaskEvent :=
  forwardTrafficFrom clientToAgent agentToClient
    { clientToAgentEnded := false, agentToClientEnded := false, selected := false } schedule

/-! ## The tunnel's connection identifiers -/

/-- Modelled from the spec: the `Tunnel` of `pkg/tunnel/server`, whose code is not part of the
sources at hand.  The spec gives it `connections: map<int64, LogicalConnection>` (here the
registered identifiers) and `nextId: monotonically increasing counter`. -/
structure TunnelState where
  nextId : Int
  connections : List Int
  deriving DecidableEq, Repr

/-- Modelled from the spec: `NewLogicalConnection(ctx)` (`NewPacketConn`) "allocates the next
id, registers a new LogicalConnection, and returns it without sending anything".  The result
is the identifier of the new connection and the tunnel after the call. -/
def TunnelState.NewPacketConn (t : TunnelState) : Int × TunnelState :=
  (t.nextId, { nextId := t.nextId + 1, connections := t.connections ++ [t.nextId] })

/-- Modelled from the spec: `Close` "removes the connection from the Tunnel's registry";
closing a connection that is not registered changes nothing. -/
def TunnelState.Close (t : TunnelState) (id : Int) : TunnelState :=
  { t with connections := t.connections.erase id }

/-- A call made on one tunnel by the bridge requests that share it. -/
inductive TunnelOp where
  | NewPacketConn
  | Close (id : Int)
  deriving DecidableEq, Repr

/-- A sequence of calls on one tunnel, the tunnel's lock putting them in an order: the
identifiers that the `NewPacketConn` calls return, in call order, and the tunnel at the end. -/
def TunnelState.run (t : TunnelState) : List TunnelOp → List Int × TunnelState
  | [] => ([], t)
  | TunnelOp.NewPacketConn :: ops =>
    let r := (t.NewPacketConn.2).run ops
    (t.NewPacketConn.1 :: r.1, r.2)
  | TunnelOp.Close id :: ops => (t.Close id).run ops

end OCM.TunnelServer

/-! # The work store of the cloudevents client
(`vendor/open-cluster-management.io/sdk-go/pkg/cloudevents/work/store/base.go`) -/

namespace OCM.WorkStore

/-- A Go run-time panic. -/
inductive Panic where
  /-- The panic `close of closed channel`. -/
  | closeOfClosedChannel
  deriving DecidableEq, Repr

/-- The struct `workWatcher`: for each of its two channels whether it has been closed, and the
flag `stopped`.  Nothing is ever sent on `done`. -/
structure workWatcher where
  resultClosed : Bool
  doneClosed : Bool
  stopped : Bool
  deriving DecidableEq, Repr

/-- The function `newWorkWatcher`: two fresh channels, `stopped` false. -/
def newWorkWatcher : workWatcher :=
  { resultClosed := false, doneClosed := false, stopped := false }

/-- The builtin `close(ch)` on a channel that is closed or not: closing a closed channel
panics. -/
def close (closed : Bool) : Except Panic Bool :=
  if closed then Except.error Panic.closeOfClosedChannel else Except.ok true

/-- The method `workWatcher.Stop`.  The case `<-w.done` of the `select` is ready exactly when
`done` is closed, as nothing is sent on it; otherwise the `default` case runs. -/
def workWatcher.Stop (w : workWatcher) : Except Panic workWatcher :=
  if w.doneClosed then
    match close w.resultClosed with
    | Except.error p => Except.error p
    | Except.ok c => Except.ok { w with resultClosed := c }
  else
    match close w.doneClosed with
    | Except.error p => Except.error p
    | Except.ok c => Except.ok { w with stopped := true, doneClosed := c }

/-- The watcher after `n` successive calls of `Stop`, or the panic of the first call that
panics. -/
def stopTimes : Nat → workWatcher → Except Panic workWatcher
  | 0, w => Except.ok w
  | n + 1, w =>
    match w.Stop with
    | Except.error p => Except.error p
    | Except.ok w1 => stopTimes n w1

end OCM.WorkStore

/-! # The runtime reconciler of the klusterlet operator
(`pkg/operator/operators/klusterlet/controllers/klusterletcontroller/klusterlet_runtime_reconcile.go`) -/

namespace OCM.Klusterlet

open OCM.TunnelServer (GoString goStr GoError)

/-- Go `metav1.Condition`, without its times and generation. -/
structure Condition where
  /-- The field `Type`. -/
  Type_ : GoString
  Status : GoString
  Reason : GoString := []
  Message : GoString := []
  deriving DecidableEq, Repr

/-- The constants `metav1.ConditionTrue` and `metav1.ConditionFalse`. -/
def ConditionTrue : GoString := goStr "True"
def ConditionFalse : GoString := goStr "False"

/-- The constants `ConditionHubConnectionDegraded`, `ReasonHubKubeConfigSecretMissing`,
`ConditionKlusterletApplied` and `ReasonKlusterletApplyFailed` of the package
`open-cluster-management.io/api/operator/v1`. -/
def ConditionHubConnectionDegraded : GoString := goStr "HubConnectionDegraded"
def ReasonHubKubeConfigSecretMissing : GoString := goStr "HubKubeConfigSecretMissing"
def ConditionKlusterletApplied : GoString := goStr "Applied"
def ReasonKlusterletApplyFailed : GoString := goStr "KlusterletApplyFailed"

/-- Go `meta.FindStatusCondition`: the first condition of the given type, nil when there is
none. -/
def FindStatusCondition : List Condition → GoString → Option Condition
  | [], _ => none
  | c :: cs, conditionType =>
    if c.Type_ = conditionType then some c else FindStatusCondition cs conditionType

/-- Go `meta.SetStatusCondition`: the first condition of the new condition's type takes its
status, reason and message; the new condition is appended when there is none. -/
def SetStatusCondition : List Condition → Condition → List Condition
  | [], newCondition => [newCondition]
  | c :: cs, newCondition =>
    if c.Type_ = newCondition.Type_ then
      { c with Status := newCondition.Status, Reason := newCondition.Reason,
               Message := newCondition.Message } :: cs
    else c :: SetStatusCondition cs newCondition

/-- Whether `s` starts with `sub`. -/
def startsWith : GoString → GoString → Bool
  | _, [] => true
  | [], _ :: _ => false
  | a :: s, b :: sub => a == b && startsWith s sub

/-- Go `strings.Contains`. -/
def Contains : GoString → GoString → Bool
  | [], substr => startsWith [] substr
  | c :: s, substr => startsWith (c :: s) substr || Contains s substr

/-- The struct `klusterletConfig`, declared elsewhere in the package: the fields that
`installAgent` reads. -/
structure klusterletConfig where
  KlusterletName : GoString
  KlusterletNamespace : GoString
  AgentNamespace : GoString
  ClusterName : GoString
  InstallMode : GoString
  RegistrationServiceAccount : GoString
  WorkServiceAccount : GoString
  ExternalManagedKubeConfigRegistrationSecret : GoString
  ExternalManagedKubeConfigWorkSecret : GoString
  Replica : Int
  deriving DecidableEq, Repr

/-- The type `reconcileState` of the package. -/
inductive reconcileState where
  | reconcileStop
  | reconcileContinue
  deriving DecidableEq, Repr

/-- The reconciler `runtimeReconcile` with the cluster it talks to: the results of the calls
that `installAgent` makes outside the file. -/
structure runtimeReconcile where
  /-- The function `helpers.IsHosted` on an install mode. -/
  IsHosted : GoString → Bool
  /-- The error of `helpers.SyncKubeConfigSecret` for a service account and a secret name. -/
  SyncKubeConfigSecret : GoString → GoString → Option GoError
  /-- The error of `helpers.ApplyDeployment` for a manifest file rendered with a config. -/
  ApplyDeployment : GoString → klusterletConfig → Option GoError
  /-- The hub kubeconfig secret of a namespace: the error of `Secrets(namespace).Get`, or the
  value of `Data["cluster-name"]`. -/
  GetHubKubeConfigSecret : GoString → Except GoError GoString
  /-- The error of `Deployments(namespace).Delete` for a deployment name. -/
  DeleteDeployment : GoString → GoString → Option GoError
  /-- The function `errors.IsNotFound`. -/
  IsNotFound : GoError → Bool

/-- A call made by `installAgent` on the cluster. -/
inductive AgentEvent where
  | SyncKubeConfigSecret (saName secretName : GoString)
  /-- The call `helpers.ApplyDeployment` for a manifest file, with the config that its
  callback renders the template with. -/
  | ApplyDeployment (file : GoString) (config : klusterletConfig)
  | GetSecret (ns : GoString)
  | DeleteDeployment (ns name : GoString)
  deriving DecidableEq, Repr

/-- The method `runtimeReconcile.createManagedClusterKubeconfig`, on the klusterlet's
conditions and the log `tr`. -/
def createManagedClusterKubeconfig (r : runtimeReconcile) (conditions : List Condition)
    (saName secretName : GoString) (tr : List AgentEvent) :
    List Condition × Option GoError × List AgentEvent :=
  match r.SyncKubeConfigSecret saName secretName with
  | some err =>
    (SetStatusCondition conditions
      { Type_ := ConditionKlusterletApplied, Status := ConditionFalse,
        Reason := ReasonKlusterletApplyFailed,
        Message := goStr "Failed to create managed kubeconfig secret " ++ secretName ++
          goStr " with error " ++ err.Error },
      some err, tr ++ [AgentEvent.SyncKubeConfigSecret saName secretName])
  | none => (conditions, none, tr ++ [AgentEvent.SyncKubeConfigSecret saName secretName])

/-- The method `runtimeReconcile.getClusterNameFromHubKubeConfigSecret`, on the klusterlet's
conditions and the log `tr`. -/
def getClusterNameFromHubKubeConfigSecret (r : runtimeReconcile) (conditions : List Condition)
    (ns : GoString) (tr : List AgentEvent) :
    List Condition × Except GoError GoString × List AgentEvent :=
  match r.GetHubKubeConfigSecret ns with
  | Except.error err =>
    (SetStatusCondition conditions
      { Type_ := ConditionKlusterletApplied, Status := ConditionFalse,
        Reason := ReasonKlusterletApplyFailed,
        Message := goStr "Failed to get cluster name from hub kubeconfig secret with error " ++
          err.Error },
      Except.error err, tr ++ [AgentEvent.GetSecret ns])
  | Except.ok clusterName =>
    if clusterName.length = 0 then
      (SetStatusCondition conditions
        { Type_ := ConditionKlusterletApplied, Status := ConditionFalse,
          Reason := ReasonKlusterletApplyFailed,
          Message := goStr "Failed to get cluster name from hub kubeconfig secret with error: " ++
            goStr "the cluster name in the secret is empty" },
        Except.error (GoError.errorf (goStr "the cluster name in the secret is empty")),
        tr ++ [AgentEvent.GetSecret ns])
    else (conditions, Except.ok clusterName, tr ++ [AgentEvent.GetSecret ns])

/-- The replica count of the work agent (lines 100 to 106 of the file): the config's own count,
or 0 when the klusterlet has no `HubConnectionDegraded` condition, or has one that is `True`
with a reason containing `HubKubeConfigSecretMissing`. -/
def workReplica (conditions : List Condition) (replica : Int) : Int :=
  match FindStatusCondition conditions ConditionHubConnectionDegraded with
  | none => 0
  | some hubConnectionDegradedCondition =>
    if hubConnectionDegradedCondition.Status = ConditionTrue ∧
        Contains hubConnectionDegradedCondition.Reason ReasonHubKubeConfigSecretMissing = true then
      0
    else replica

/-- The manifest file of the registration agent's deployment. -/
@[irreducible]
def registrationDeploymentFile : GoString :=
  goStr "klusterlet/management/klusterlet-registration-deployment.yaml"

/-- The manifest file of the work agent's deployment. -/
@[irreducible]
def workDeploymentFile : GoString :=
  goStr "klusterlet/management/klusterlet-work-deployment.yaml"

/-- The first block of `installAgent` (lines 46 to 58): in hosted mode, the managed kubeconfig
secrets of the registration agent and of the work agent; the error is that of the first call
that fails. -/
def hostedKubeconfigs (r : runtimeReconcile) (conditions : List Condition)
    (runtimeConfig : klusterletConfig) : List Condition × Option GoError × List AgentEvent :=
  if r.IsHosted runtimeConfig.InstallMode then
    match createManagedClusterKubeconfig r conditions runtimeConfig.RegistrationServiceAccount
        runtimeConfig.ExternalManagedKubeConfigRegistrationSecret [] with
    | (conditions1, some err, tr) => (conditions1, some err, tr)
    | (conditions1, none, tr) =>
      createManagedClusterKubeconfig r conditions1 runtimeConfig.WorkServiceAccount
        runtimeConfig.ExternalManagedKubeConfigWorkSecret tr
  else (conditions, none, [])

/-- The block of `installAgent` that names the cluster of the work agent (lines 86 to 92): the
config's cluster name, read from the hub kubeconfig secret when it is empty. -/
def workClusterName (r : runtimeReconcile) (conditions : List Condition)
    (runtimeConfig : klusterletConfig) (tr : List AgentEvent) :
    List Condition × Except GoError GoString × List AgentEvent :=
  if runtimeConfig.ClusterName = [] then
    getClusterNameFromHubKubeConfigSecret r conditions runtimeConfig.AgentNamespace tr
  else (conditions, Except.ok runtimeConfig.ClusterName, tr)

/-- The method `runtimeReconcile.installAgent`, on the klusterlet's conditions: the conditions
at return, the reconcile state, the error and the log of calls.  The writes to the klusterlet's
generations and related resources, which the function does not read back, are left out. -/
def installAgent (r : runtimeReconcile) (conditions : List Condition)
    (runtimeConfig : klusterletConfig) :
    List Condition × reconcileState × Option GoError × List AgentEvent :=
  match hostedKubeconfigs r conditions runtimeConfig with
  | (conditions1, some err, tr) => (conditions1, reconcileState.reconcileStop, some err, tr)
  | (conditions1, none, tr) =>
  let registrationFile := registrationDeploymentFile
  let tr1 := tr ++ [AgentEvent.ApplyDeployment registrationFile runtimeConfig]
  match r.ApplyDeployment registrationFile runtimeConfig with
  | some err => (conditions1, reconcileState.reconcileStop, some err, tr1)
  | none =>
  let workConfig := runtimeConfig
  match workClusterName r conditions1 runtimeConfig tr1 with
  | (conditions2, Except.error err, tr2) =>
    (conditions2, reconcileState.reconcileStop, some err, tr2)
  | (conditions2, Except.ok clusterName, tr2) =>
  let workConfig := { workConfig with ClusterName := clusterName }
  let workConfig := { workConfig with Replica := workReplica conditions2 workConfig.Replica }
  let workFile := workDeploymentFile
  let tr3 := tr2 ++ [AgentEvent.ApplyDeployment workFile workConfig]
  match r.ApplyDeployment workFile workConfig with
  | some err => (conditions2, reconcileState.reconcileStop, some err, tr3)
  | none =>
  let deployment := runtimeConfig.KlusterletName ++ goStr "-agent"
  let tr4 := tr3 ++ [AgentEvent.DeleteDeployment runtimeConfig.AgentNamespace deployment]
  match r.DeleteDeployment runtimeConfig.AgentNamespace deployment with
  | some err =>
    if !r.IsNotFound err then (conditions2, reconcileState.reconcileStop, some err, tr4)
    else (conditions2, reconcileState.reconcileContinue, none, tr4)
  | none => (conditions2, reconcileState.reconcileContinue, none, tr4)

/-- The configs with which the work deployment is rendered in a log, in order. -/
def workDeploymentConfigs : List AgentEvent → List klusterletConfig
  | [] => []
  | AgentEvent.ApplyDeployment file config :: tr =>
    if file = workDeploymentFile then
      config :: workDeploymentConfigs tr
    else workDeploymentConfigs tr
  | _ :: tr => workDeploymentConfigs tr

/-- A standalone cluster on which every call succeeds. -/
def healthyCluster : runtimeReconcile where
  IsHosted := fun _ => false
  SyncKubeConfigSecret := fun _ _ => none
  ApplyDeployment := fun _ _ => none
  GetHubKubeConfigSecret := fun _ => Except.ok (goStr "cluster1")
  DeleteDeployment := fun _ _ => none
  IsNotFound := fun _ => false

/-- A config for the cluster `cluster1` with one replica. -/
def exampleConfig : klusterletConfig where
  KlusterletName := goStr "klusterlet"
  KlusterletNamespace := goStr "open-cluster-management-agent"
  AgentNamespace := goStr "open-cluster-management-agent"
  ClusterName := goStr "cluster1"
  InstallMode := goStr "Default"
  RegistrationServiceAccount := goStr "klusterlet-registration-sa"
  WorkServiceAccount := goStr "klusterlet-work-sa"
  ExternalManagedKubeConfigRegistrationSecret := goStr "external-managed-kubeconfig-registration"
  ExternalManagedKubeConfigWorkSecret := goStr "external-managed-kubeconfig-work"
  Replica := 1

/-- The condition `HubConnectionDegraded` with status `False`. -/
def connectedCondition : Condition :=
  { Type_ := ConditionHubConnectionDegraded, Status := ConditionFalse,
    Reason := goStr "HubConnectionFunctional" }

end OCM.Klusterlet

/-! # The AWS IRSA registration option (`pkg/registration/register/aws_irsa/options.go`) -/

namespace OCM.AWSIRSA

open OCM.TunnelServer (GoString goStr)

/-- The metadata of an object that `meta.Accessor` gives access to: its name and its labels. -/
structure ObjectMeta where
  Name : GoString
  Labels : List (GoString × GoString)
  deriving DecidableEq, Repr

/-- The constant `addonv1alpha1.AddonLabelKey` of `open-cluster-management.io/api`. -/
def AddonLabelKey : GoString := goStr "open-cluster-management.io/addon-name"

/-- The `EventFilterFunc` that `NewAWSOption` builds for the cluster name of its secret option.
The object is `none` when `meta.Accessor(obj)` returns an error. -/
def EventFilterFunc (ClusterName : GoString) (obj : Option ObjectMeta) : Bool :=
  match obj with
  | none => false
  | some accessor =>
    let labels := accessor.Labels
    match labels.lookup AddonLabelKey with
    | some _ => false
    | none => decide (accessor.Name = ClusterName)

/-- An object named `cluster1-abc` without labels. -/
def suffixedObject : ObjectMeta := { Name := goStr "cluster1-abc", Labels := [] }

end OCM.AWSIRSA

/-! # The hub reconciler of the cluster manager operator
(`pkg/operator/operators/clustermanager/controllers/clustermanagercontroller/clustermanager_hub_reconcile.go`) -/

namespace OCM.ClusterManager

open OCM.TunnelServer (GoString goStr)

def namespaceResource : GoString := goStr "cluster-manager/cluster-manager-namespace.yaml"

def hubRbacResourceFiles : List GoString :=
  [goStr "cluster-manager/hub/cluster-manager-registration-clusterrole.yaml",
    goStr "cluster-manager/hub/cluster-manager-registration-clusterrolebinding.yaml",
    goStr "cluster-manager/hub/cluster-manager-registration-serviceaccount.yaml",
    goStr "cluster-manager/hub/cluster-manager-registration-webhook-clusterrole.yaml",
    goStr "cluster-manager/hub/cluster-manager-registration-webhook-clusterrolebinding.yaml",
    goStr "cluster-manager/hub/cluster-manager-registration-webhook-serviceaccount.yaml",
    goStr "cluster-manager/hub/cluster-manager-work-webhook-clusterrole.yaml",
    goStr "cluster-manager/hub/cluster-manager-work-webhook-clusterrolebinding.yaml",
    goStr "cluster-manager/hub/cluster-manager-work-webhook-serviceaccount.yaml",
    goStr "cluster-manager/hub/cluster-manager-work-executor-admin-clusterrole.yaml",
    goStr "cluster-manager/hub/cluster-manager-placement-clusterrole.yaml",
    goStr "cluster-manager/hub/cluster-manager-placement-clusterrolebinding.yaml",
    goStr "cluster-manager/hub/cluster-manager-placement-serviceaccount.yaml"]

def mwReplicaSetResourceFiles : List GoString :=
  [goStr "cluster-manager/hub/cluster-manager-manifestworkreplicaset-clusterrole.yaml",
    goStr "cluster-manager/hub/cluster-manager-manifestworkreplicaset-clusterrolebinding.yaml",
    goStr "cluster-manager/hub/cluster-manager-manifestworkreplicaset-serviceaccount.yaml"]

def hubAddOnManagerRbacResourceFiles : List GoString :=
  [goStr "cluster-manager/hub/cluster-manager-addon-manager-clusterrole.yaml",
    goStr "cluster-manager/hub/cluster-manager-addon-manager-clusterrolebinding.yaml",
    goStr ("cluster-manager/hub/" ++
      "cluster-manager-addon-manager-work-executor-admin-clusterrolebinding.yaml"),
    goStr "cluster-manager/hub/cluster-manager-addon-manager-serviceaccount.yaml"]

def hubDefaultWebhookServiceFiles : List GoString :=
  [goStr "cluster-manager/hub/cluster-manager-registration-webhook-service.yaml",
    goStr "cluster-manager/hub/cluster-manager-work-webhook-service.yaml"]

def hubHostedWebhookServiceFiles : List GoString :=
  [goStr "cluster-manager/hub/cluster-manager-registration-webhook-service-hosted.yaml",
    goStr "cluster-manager/hub/cluster-manager-work-webhook-service-hosted.yaml"]

def hubHostedWebhookEndpointRegistration : GoString :=
  goStr "cluster-manager/hub/cluster-manager-registration-webhook-endpoint-hosted.yaml"

def hubHostedWebhookEndpointWork : GoString :=
  goStr "cluster-manager/hub/cluster-manager-work-webhook-endpoint-hosted.yaml"

/-- The webhook part of `manifests.HubConfig`: the field that `getHubResources` reads. -/
structure Webhook where
  IsIPFormat : Bool
  deriving DecidableEq, Repr

/-- The struct `manifests.HubConfig`, declared outside the file: the fields that
`getHubResources` reads. -/
structure HubConfig where
  AddOnManagerEnabled : Bool
  MWReplicaSetEnabled : Bool
  RegistrationWebhook : Webhook
  WorkWebhook : Webhook
  deriving DecidableEq, Repr

/-- The function `getHubResources`.  `IsHosted` is `helpers.IsHosted`, whose code is outside the
file, on install modes of type `μ`. -/
def getHubResources {μ : Type} (IsHosted : μ → Bool) (mode : μ) (config : HubConfig) :
    List GoString :=
  let hubResources := [namespaceResource]
  let hubResources := hubResources ++ hubRbacResourceFiles
  let hubResources :=
    if config.AddOnManagerEnabled then hubResources ++ hubAddOnManagerRbacResourceFiles
    else hubResources
  let hubResources :=
    if config.MWReplicaSetEnabled then hubResources ++ mwReplicaSetResourceFiles
    else hubResources
  if IsHosted mode then
    let hubResources := hubResources ++ hubHostedWebhookServiceFiles
    let hubResources :=
      if config.RegistrationWebhook.IsIPFormat then
        hubResources ++ [hubHostedWebhookEndpointRegistration]
      else hubResources
    let hubResources :=
      if config.WorkWebhook.IsIPFormat then hubResources ++ [hubHostedWebhookEndpointWork]
      else hubResources
    hubResources
  else
    hubResources ++ hubDefaultWebhookServiceFiles

/-- The files that do not depend on the install mode: the namespace, the RBAC files and the
files of the two optional components. -/
def modeIndependentFiles : List GoString :=
  [namespaceResource] ++ hubRbacResourceFiles ++ hubAddOnManagerRbacResourceFiles ++
    mwReplicaSetResourceFiles

end OCM.ClusterManager

namespace OCM.TunnelServer

/-- The host line as the claim words it: present when `r.Header` has no `Host` entry at
all. -/
def hostLineIfNoEntry (r : Request) : GoString :=
  if (r.Header.lookup (goStr "Host")).isNone then goStr "Host: " ++ r.Host ++ goStr "\r\n"
  else []

/-- A request `GET /x HTTP/1.1` whose header has a `Host` entry with an empty value. -/
def emptyHostRequest : Request where
  Method := goStr "GET"
  Path := goStr "/x"
  RequestURI := goStr "/x"
  ProtoMajor := 1
  ProtoMinor := 1
  Header := [(goStr "Host", [goStr ""])]
  Host := goStr "hub.example"
  Body := none
  Context := Context.Background

/-- The example request with a body whose read fails after two bytes. -/
def brokenBodyRequest : Request :=
  { exampleRequest with
    Body := some (goStr "hi", some (GoError.foreign (goStr "unexpected EOF"))) }

end OCM.TunnelServer

/-! # The work processor of the cloudevents work store
(`vendor/open-cluster-management.io/sdk-go/pkg/cloudevents/work/store/base.go`) -/

namespace OCM.WorkStore

open OCM.TunnelServer (GoString goStr GoError)
open OCM.Klusterlet (Condition ConditionTrue ConditionFalse FindStatusCondition)

/-- The constant `ManifestWorkFinalizer` of the file. -/
def ManifestWorkFinalizer : GoString :=
  goStr "cloudevents.open-cluster-management.io/manifest-work-cleanup"

/-- The constants `common.ManifestsDeleted` and `common.CloudEventsSequenceIDAnnotationKey` of
the package `sdk-go/pkg/cloudevents/work/common`. -/
def ManifestsDeleted : GoString := goStr "Deleted"
def CloudEventsSequenceIDAnnotationKey : GoString :=
  goStr "cloudevents.open-cluster-management.io/sequenceid"

/-- Go `meta.IsStatusConditionTrue`: the first condition of the type exists and is `True`. -/
def IsStatusConditionTrue (conditions : List Condition) (conditionType : GoString) : Bool :=
  match FindStatusCondition conditions conditionType with
  | some c => decide (c.Status = ConditionTrue)
  | none => false

/-- The status of a `workv1.ManifestWork`: its conditions, and the rest of it as one value. -/
structure ManifestWorkStatus where
  Conditions : List Condition
  ResourceStatus : GoString
  deriving DecidableEq, Repr

/-- The parts of `workv1.ManifestWork` that the processor reads or writes.  A nil map of
annotations is the empty one. -/
structure ManifestWork where
  UID : GoString
  Namespace : GoString
  Name : GoString
  ResourceVersion : GoString
  Annotations : List (GoString × GoString)
  Finalizers : List GoString
  Status : ManifestWorkStatus
  deriving DecidableEq, Repr

/-- The read `m[key]` of a Go map of strings: the empty string when the key is absent. -/
def mapGet (m : List (GoString × GoString)) (key : GoString) : GoString :=
  (m.lookup key).getD []

/-- The write `m[key] = value` of a Go map of strings. -/
def mapSet : List (GoString × GoString) → GoString → GoString → List (GoString × GoString)
  | [], key, value => [(key, value)]
  | (k, v) :: m, key, value =>
    if k = key then (key, value) :: m else (k, v) :: mapSet m key value

/-- The value of a run of decimal digits that follows the value `acc`, none when a byte is not a
digit. -/
def parseDigits : List UInt8 → Nat → Option Nat
  | [], acc => some acc
  | d :: ds, acc =>
    if 48 ≤ d.toNat ∧ d.toNat ≤ 57 then parseDigits ds (acc * 10 + (d.toNat - 48)) else none

/-- Go `strconv.Atoi` on a 64-bit platform: an optional sign, then one digit at least, the
value within the range of `int`. -/
def Atoi (s : GoString) : Except GoError Int :=
  match s with
  | [] => Except.error (GoError.foreign (goStr "strconv.Atoi: invalid syntax"))
  | c :: rest =>
    let digits := if c = 45 ∨ c = 43 then rest else c :: rest
    if digits = [] then Except.error (GoError.foreign (goStr "strconv.Atoi: invalid syntax"))
    else
      match parseDigits digits 0 with
      | none => Except.error (GoError.foreign (goStr "strconv.Atoi: invalid syntax"))
      | some n =>
        let v : Int := if c = 45 then -(n : Int) else (n : Int)
        if v < -9223372036854775808 ∨ v > 9223372036854775807 then
          Except.error (GoError.foreign (goStr "strconv.Atoi: value out of range"))
        else Except.ok v

/-- The loop of `ensureFinalizers`: whether some finalizer is `ManifestWorkFinalizer`. -/
def hasFinalizer : List GoString → Bool
  | [] => false
  | f :: fs => if f = ManifestWorkFinalizer then true else hasFinalizer fs

/-- The function `ensureFinalizers`. -/
def ensureFinalizers (workFinalizers : List GoString) : List GoString :=
  let has := hasFinalizer workFinalizers
  if !has then workFinalizers ++ [ManifestWorkFinalizer] else workFinalizers

/-- The processor `workProcessor` with its store: the results of `b.store.ListAll()`, of
`b.store.Update` and `b.store.Delete` on a work, and of
`utils.CompareSnowflakeSequenceIDs`, whose code is outside the file. -/
structure workProcessor where
  ListAll : List ManifestWork × Option GoError
  Update : ManifestWork → Option GoError
  Delete : ManifestWork → Option GoError
  CompareSnowflakeSequenceIDs : GoString → GoString → Bool × Option GoError

/-- A call made by `handleWork` that changes the store. -/
inductive StoreEvent where
  | Update (work : ManifestWork)
  | Delete (work : ManifestWork)
  deriving DecidableEq, Repr

/-- The loop of `getWork`: the first work with the given UID. -/
def findWork : List ManifestWork → GoString → Option ManifestWork
  | [], _ => none
  | work :: works, uid => if work.UID = uid then some work else findWork works uid

/-- The method `workProcessor.getWork`. -/
def workProcessor.getWork (b : workProcessor) (uid : GoString) : Option ManifestWork :=
  match b.ListAll with
  | (_, some _) => none
  | (works, none) => findWork works uid

/-- The method `workProcessor.handleWork`: the returned error and the log of the calls that
change the store.  Logging is left out. -/
def workProcessor.handleWork (b : workProcessor) (work : ManifestWork) :
    Option GoError × List StoreEvent :=
  match b.getWork work.UID with
  | none =>
    if IsStatusConditionTrue work.Status.Conditions ManifestsDeleted then (none, [])
    else (some (GoError.errorf (goStr "the work " ++ work.UID ++ goStr " does not exist")), [])
  | some lastWork =>
  let updatedWork := lastWork
  if IsStatusConditionTrue work.Status.Conditions ManifestsDeleted then
    let updatedWork := { updatedWork with Finalizers := [] }
    (b.Delete updatedWork, [StoreEvent.Delete updatedWork])
  else
  match Atoi lastWork.ResourceVersion with
  | Except.error _ => (none, [])
  | Except.ok lastResourceVersion =>
  match Atoi work.ResourceVersion with
  | Except.error _ => (none, [])
  | Except.ok resourceVersion =>
  if lastResourceVersion ≠ 0 ∧ resourceVersion > lastResourceVersion then (none, [])
  else
  let lastSequenceID := mapGet lastWork.Annotations CloudEventsSequenceIDAnnotationKey
  let sequenceID := mapGet work.Annotations CloudEventsSequenceIDAnnotationKey
  match b.CompareSnowflakeSequenceIDs lastSequenceID sequenceID with
  | (_, some _) => (none, [])
  | (greater, none) =>
  if !greater then (none, [])
  else if lastWork.Status = work.Status then (none, [])
  else
    let updatedWork := { updatedWork with Finalizers := ensureFinalizers updatedWork.Finalizers }
    let updatedWork :=
      { updatedWork with
        Annotations := mapSet updatedWork.Annotations CloudEventsSequenceIDAnnotationKey
          sequenceID }
    let updatedWork := { updatedWork with Status := work.Status }
    (b.Update updatedWork, [StoreEvent.Update updatedWork])

/-- The work `w1` as the source keeps it in its cache, at resource version 2. -/
def cachedWork : ManifestWork where
  UID := goStr "w1"
  Namespace := goStr "cluster1"
  Name := goStr "work1"
  ResourceVersion := goStr "2"
  Annotations := []
  Finalizers := []
  Status := { Conditions := [], ResourceStatus := [] }

/-- The work `w1` as an agent reports it, with a status of its own, at a given resource
version. -/
def reportedWork (resourceVersion : GoString) : ManifestWork :=
  { cachedWork with
    ResourceVersion := resourceVersion
    Annotations := [(CloudEventsSequenceIDAnnotationKey, goStr "1834773391719010304")]
    Status :=
      { Conditions := [{ Type_ := goStr "Applied", Status := ConditionTrue }],
        ResourceStatus := [] } }

/-- A processor whose cache holds `cachedWork`, whose store accepts every change, and for which
every sequence id is greater than the last. -/
def exampleProcessor : workProcessor where
  ListAll := ([cachedWork], none)
  Update := fun _ => none
  Delete := fun _ => none
  CompareSnowflakeSequenceIDs := fun _ _ => (true, none)

end OCM.WorkStore

/-! # The managed cluster controller of the hub
(`pkg/registration/hub/managedcluster/controller.go`) -/

namespace OCM.HubRegistration

open OCM.TunnelServer (Bytes GoString goStr GoError)
open OCM.Klusterlet (Condition ConditionTrue ConditionFalse FindStatusCondition
  SetStatusCondition)
open OCM.WorkStore (IsStatusConditionTrue mapSet)

/-- The constant `clusterAcceptedAnnotationKey` of the file. -/
def clusterAcceptedAnnotationKey : GoString :=
  goStr "open-cluster-management.io/automatically-accepted-on"

/-- The constant `v1.ManagedClusterConditionHubAccepted` of `open-cluster-management.io/api`. -/
def ManagedClusterConditionHubAccepted : GoString := goStr "HubAcceptedManagedCluster"

/-- The parts of `v1.ManagedCluster` that `sync` reads. -/
structure ManagedCluster where
  Name : GoString
  /-- Whether `DeletionTimestamp` is set (`!DeletionTimestamp.IsZero()`). -/
  Deleting : Bool
  /-- The field `Spec.HubAcceptsClient`. -/
  HubAcceptsClient : Bool
  Annotations : List (GoString × GoString)
  /-- The field `Status.Conditions`. -/
  Conditions : List Condition
  deriving DecidableEq, Repr

/-- One result of `resourceapply.DeleteAll` or of the applier: the file, the text of the
result's type (what `%T` prints) and the error. -/
structure ApplyResult where
  File : GoString
  Type_ : GoString
  Error : Option GoError
  deriving DecidableEq, Repr

/-- The controller `managedClusterController` with the cluster it talks to: the results of the
calls that `sync` makes outside the file. -/
structure managedClusterController where
  /-- The call `c.clusterLister.Get(name)`. -/
  GetCluster : GoString → Except GoError ManagedCluster
  /-- The function `errors.IsNotFound`. -/
  IsNotFound : GoError → Bool
  /-- The value of `features.HubMutableFeatureGate.Enabled(ocmfeature.ManagedClusterAutoApproval)`. -/
  AutoApprovalEnabled : Bool
  /-- The call `c.approver.Cleanup`. -/
  Cleanup : ManagedCluster → Option GoError
  /-- The call `resourceapply.DeleteAll` for the RBAC files of a cluster. -/
  DeleteAll : GoString → List ApplyResult
  /-- The call `c.manifestWorkLister.ManifestWorks(clusterName).List`: the names of the works
  and the error. -/
  ListManifestWorks : GoString → List GoString × Option GoError
  /-- The call `c.roleBindingLister.RoleBindings(ns).Get(name)`. -/
  GetRoleBinding : GoString → GoString → Option GoError
  /-- The call `RemoveFinalizer` of the role binding patcher, with `workv1.ManifestWorkFinalizer`. -/
  RoleBindingRemoveFinalizer : GoString → GoString → Option GoError
  /-- The call `ManagedClusters().Patch(ctx, name, types.MergePatchType, patch, ...)`. -/
  Patch : GoString → Bytes → Option GoError
  /-- The call `c.patcher.RemoveFinalizer`, with `v1.ManagedClusterFinalizer`. -/
  RemoveFinalizer : ManagedCluster → Option GoError
  /-- The call `c.patcher.AddFinalizer`, with `v1.ManagedClusterFinalizer`. -/
  AddFinalizer : ManagedCluster → Option GoError
  /-- The call `c.patcher.PatchStatus` for new and old status conditions. -/
  PatchStatus : List Condition → List Condition → Bool × Option GoError
  /-- The call `resourceapply.ApplyNamespace`. -/
  ApplyNamespace : GoString → Option GoError
  /-- The call `c.applier.Apply` for the RBAC files of a cluster. -/
  Apply : GoString → List ApplyResult
  /-- The value of `time.Now().Format(time.RFC3339)`. -/
  Now : GoString

/-- A call made by `sync` on the cluster or on the event recorder. -/
inductive Event where
  | Cleanup (name : GoString)
  | DeleteAll (clusterName : GoString)
  | ListManifestWorks (clusterName : GoString)
  | GetRoleBinding (ns name : GoString)
  | RoleBindingRemoveFinalizer (ns name : GoString)
  | Patch (name : GoString) (patch : Bytes)
  | RemoveFinalizer (name : GoString)
  | AddFinalizer (name : GoString)
  | PatchStatus (name : GoString) (conditions : List Condition)
  | ApplyNamespace (name : GoString)
  | Apply (name : GoString)
  | Eventf (reason message : GoString)
  deriving DecidableEq, Repr

/-- Whether an event is the `Patch` call of `acceptCluster`. -/
def Event.isPatch : Event → Bool
  | .Patch _ _ => true
  | _ => false

/-- Whether an event is a call made by `removeFinalizerFromWorkRoleBinding`. -/
def Event.isRoleBindingCall : Event → Bool
  | .GetRoleBinding _ _ => true
  | .RoleBindingRemoveFinalizer _ _ => true
  | _ => false

/-- The errors gathered from a list of results: `fmt.Errorf("%q (%T): %v", ...)` for every
result with an error.  (The file names are plain, so `%q` only adds the quotes.) -/
def resultErrors : List ApplyResult → List GoError
  | [] => []
  | result :: results =>
    match result.Error with
    | some err =>
      GoError.errorf (goStr "\x22" ++ result.File ++ goStr "\x22 (" ++ result.Type_ ++
        goStr "): " ++ err.Error) :: resultErrors results
    | none => resultErrors results

/-- The texts of errors, one on each line. -/
def joinLines : List GoError → GoString
  | [] => []
  | [e] => e.Error
  | e :: es => e.Error ++ goStr "\n" ++ joinLines es

/-- The function `operatorhelpers.NewMultiLineAggregate` of library-go: nil for no error. -/
def NewMultiLineAggregate (errs : List GoError) : Option GoError :=
  if errs = [] then none else some (GoError.errorf (joinLines errs))

/-- The variable `requeueError`, the value of `commonhelper.NewRequeueError`, whose code is
outside the file. -/
def requeueError : GoError := GoError.foreign (goStr "cluster rbac cleanup requeue")

/-- The variable `workRoleBindingName`. -/
def workRoleBindingName (clusterName : GoString) : GoString :=
  goStr "open-cluster-management:managedcluster:" ++ clusterName ++ goStr ":work"

/-- The method `removeFinalizerFromWorkRoleBinding`, on the log `tr`. -/
def removeFinalizerFromWorkRoleBinding (c : managedClusterController) (clusterName : GoString)
    (tr : List Event) : Option GoError × List Event :=
  let tr1 := tr ++ [Event.GetRoleBinding clusterName (workRoleBindingName clusterName)]
  match c.GetRoleBinding clusterName (workRoleBindingName clusterName) with
  | some err => if c.IsNotFound err then (none, tr1) else (some err, tr1)
  | none =>
    (c.RoleBindingRemoveFinalizer clusterName (workRoleBindingName clusterName),
      tr1 ++ [Event.RoleBindingRemoveFinalizer clusterName (workRoleBindingName clusterName)])

/-- The method `removeClusterRbac`, on the log `tr`. -/
def removeClusterRbac (c : managedClusterController) (clusterName : GoString)
    (tr : List Event) : Option GoError × List Event :=
  let errs := resultErrors (c.DeleteAll clusterName)
  let tr1 := tr ++ [Event.DeleteAll clusterName, Event.ListManifestWorks clusterName]
  let works := (c.ListManifestWorks clusterName).1
  let fatal : Option GoError :=
    match (c.ListManifestWorks clusterName).2 with
    | some err => if !c.IsNotFound err then some err else none
    | none => none
  match fatal with
  | some err => (NewMultiLineAggregate (errs ++ [err]), tr1)
  | none =>
    if works.length ≠ 0 then (some requeueError, tr1)
    else removeFinalizerFromWorkRoleBinding c clusterName tr1

/-- The method `acceptCluster`, on the log `tr`. -/
def acceptCluster (c : managedClusterController) (managedClusterName : GoString)
    (tr : List Event) : Option GoError × List Event :=
  let acceptedTime := c.Now
  let patch : Bytes :=
    goStr "\x7b\x22metadata\x22:\x7b\x22annotations\x22:\x7b\x22" ++
      clusterAcceptedAnnotationKey ++ goStr "\x22:\x22" ++ acceptedTime ++
      goStr "\x22\x7d\x7d,\x22spec\x22:\x7b\x22hubAcceptsClient\x22:true\x7d\x7d"
  (c.Patch managedClusterName patch, tr ++ [Event.Patch managedClusterName patch])

/-- The branch of `sync` for a cluster that the hub does not accept (lines 145 to 181). -/
def syncNotAccepted (c : managedClusterController) (managedClusterName : GoString)
    (managedCluster : ManagedCluster) : Option GoError × List Event :=
  if c.AutoApprovalEnabled ∧
      managedCluster.Annotations.lookup clusterAcceptedAnnotationKey = none then
    acceptCluster c managedClusterName []
  else if !IsStatusConditionTrue managedCluster.Conditions ManagedClusterConditionHubAccepted then
    (none, [])
  else
    let tr := [Event.Eventf (goStr "ManagedClusterDenied")
      (goStr "managed cluster " ++ managedClusterName ++ goStr " is denied by hub cluster admin")]
    match c.Cleanup managedCluster with
    | some err => (some err, tr ++ [Event.Cleanup managedClusterName])
    | none =>
      match removeClusterRbac c managedClusterName (tr ++ [Event.Cleanup managedClusterName]) with
      | (some err, tr1) => (some err, tr1)
      | (none, tr1) =>
        let newConditions := SetStatusCondition managedCluster.Conditions
          { Type_ := ManagedClusterConditionHubAccepted, Status := ConditionFalse,
            Reason := goStr "HubClusterAdminDenied",
            Message := goStr "Denied by hub cluster admin" }
        match c.PatchStatus newConditions managedCluster.Conditions with
        | (_, some err) =>
          (some err, tr1 ++ [Event.PatchStatus managedClusterName newConditions])
        | (_, none) => (none, tr1 ++ [Event.PatchStatus managedClusterName newConditions])

/-- The branch of `sync` for a cluster that the hub accepts (lines 183 to 244). -/
def syncAccepted (c : managedClusterController) (managedClusterName : GoString)
    (managedCluster : ManagedCluster) : Option GoError × List Event :=
  let errs : List GoError :=
    match c.ApplyNamespace managedClusterName with
    | some err => [err]
    | none => []
  let tr := [Event.ApplyNamespace managedClusterName, Event.AddFinalizer managedClusterName]
  match c.AddFinalizer managedCluster with
  | some err => (some err, tr)
  | none =>
    let errs := errs ++ resultErrors (c.Apply managedClusterName)
    let acceptedCondition : Condition :=
      if errs.length > 0 then
        { Type_ := ManagedClusterConditionHubAccepted, Status := ConditionTrue,
          Reason := goStr "Error", Message := joinLines errs }
      else
        { Type_ := ManagedClusterConditionHubAccepted, Status := ConditionTrue,
          Reason := goStr "HubClusterAdminAccepted",
          Message := goStr "Accepted by hub cluster admin" }
    let newConditions := SetStatusCondition managedCluster.Conditions acceptedCondition
    let patched := c.PatchStatus newConditions managedCluster.Conditions
    let errs :=
      match patched.2 with
      | some updatedErr => errs ++ [updatedErr]
      | none => errs
    let tr1 := tr ++ [Event.Apply managedClusterName,
      Event.PatchStatus managedClusterName newConditions]
    let tr2 :=
      if patched.1 then
        tr1 ++ [Event.Eventf (goStr "ManagedClusterAccepted")
          (goStr "managed cluster " ++ managedClusterName ++
            goStr " is accepted by hub cluster admin")]
      else tr1
    (NewMultiLineAggregate errs, tr2)

/-- The method `managedClusterController.sync` for the queue key `managedClusterName`: the
returned error and the log of calls.  Logging is left out. -/
def sync (c : managedClusterController) (managedClusterName : GoString) :
    Option GoError × List Event :=
  match c.GetCluster managedClusterName with
  | Except.error err =>
    if c.IsNotFound err then removeClusterRbac c managedClusterName [] else (some err, [])
  | Except.ok managedCluster =>
    if managedCluster.Deleting then
      match c.Cleanup managedCluster with
      | some err => (some err, [Event.Cleanup managedClusterName])
      | none =>
        match removeClusterRbac c managedClusterName [Event.Cleanup managedClusterName] with
        | (some err, tr) => (some err, tr)
        | (none, tr) =>
          (c.RemoveFinalizer managedCluster, tr ++ [Event.RemoveFinalizer managedClusterName])
    else if !managedCluster.HubAcceptsClient then
      syncNotAccepted c managedClusterName managedCluster
    else
      syncAccepted c managedClusterName managedCluster

/-- The cluster after the API server has applied the merge patch of `acceptCluster`: the
annotation `automatically-accepted-on` holds the time and `spec.hubAcceptsClient` is true. -/
def acceptPatchApplied (managedCluster : ManagedCluster) (acceptedTime : GoString) :
    ManagedCluster :=
  { managedCluster with
    Annotations := mapSet managedCluster.Annotations clusterAcceptedAnnotationKey acceptedTime
    HubAcceptsClient := true }

/-- A cluster that joins for the first time: not accepted, no annotation, no condition. -/
def joiningCluster : ManagedCluster where
  Name := goStr "cluster1"
  Deleting := false
  HubAcceptsClient := false
  Annotations := []
  Conditions := []

/-- A hub with auto approval on which every call succeeds, whose lister returns the given
cluster and whose namespace `cluster1` holds the given works. -/
def exampleController (managedCluster : ManagedCluster) (works : List GoString) :
    managedClusterController where
  GetCluster := fun _ => Except.ok managedCluster
  IsNotFound := fun _ => false
  AutoApprovalEnabled := true
  Cleanup := fun _ => none
  DeleteAll := fun _ => []
  ListManifestWorks := fun _ => (works, none)
  GetRoleBinding := fun _ _ => none
  RoleBindingRemoveFinalizer := fun _ _ => none
  Patch := fun _ _ => none
  RemoveFinalizer := fun _ => none
  AddFinalizer := fun _ => none
  PatchStatus := fun _ _ => (true, none)
  ApplyNamespace := fun _ => none
  Apply := fun _ => []
  Now := goStr "2026-01-02T03:04:05Z"

/-- A hub like `exampleController` whose listing of the works of a namespace returns the given
works together with an error that is not a not-found error. -/
def unavailableListController (works : List GoString) : managedClusterController :=
  { exampleController joiningCluster works with
    ListManifestWorks := fun _ =>
      (works, some (GoError.foreign (goStr "the server is currently unable to handle the request"))) }

end OCM.HubRegistration

namespace OCM.TunnelServer

/-! ## Lemmas on `forwardAgentToClient` -/

theorem errorResponse_eq (packet : Packet) :
    errorResponse packet =
      goStr "HTTP/1.1 502 Bad Gateway\r\n" ++
        (goStr "Content-Type: text/plain\r\nContent-Length: " ++
          (fmtInt (packet.ErrorMessage.length : Nat) ++
            (goStr "\r\nConnection: close\r\n\r\n" ++ packet.ErrorMessage))) := by
  have h1 : goStr "Content-Type: text/plain\r\nContent-Length: " =
      goStr "Content-Type: text/plain\r\n" ++ goStr "Content-Length: " := by decide
  have h2 : goStr "\r\nConnection: close\r\n\r\n" =
      goStr "\r\n" ++ goStr "Connection: close\r\n" ++ goStr "\r\n" := by decide
  simp only [errorResponse, h1, h2, List.append_assoc]

/-- Packets that are not `ERROR` and whose writes succeed are passed through: the loop goes on
with the rest, having logged their non-empty payloads. -/
theorem forwardAgentToClient_pass (writeErr : Nat → Option GoError) (pre rest : List Packet)
    (written : List Bytes)
    (hpre : ∀ p ∈ pre, p.Code ≠ ControlCode.ERROR)
    (hw : ∀ k, k < (payloads pre).length → writeErr (written.length + k) = none) :
    forwardAgentToClient writeErr (pre ++ rest) written =
      forwardAgentToClient writeErr rest (written ++ payloads pre) := by
  induction pre generalizing written with
  | nil => simp [payloads]
  | cons p ps ih =>
    have hp : p.Code ≠ ControlCode.ERROR := hpre p (List.mem_cons_self _ _)
    have hps : ∀ q ∈ ps, q.Code ≠ ControlCode.ERROR :=
      fun q hq => hpre q (List.mem_cons_of_mem _ hq)
    by_cases hd : p.Data.length > 0
    · have hpay : payloads (p :: ps) = p.Data :: payloads ps := by
        simp [payloads, List.filter_cons, hd]
      have h0 : writeErr written.length = none := by
        have := hw 0 (by simp [hpay])
        simpa using this
      have hw2 : ∀ k, k < (payloads ps).length →
          writeErr ((written ++ [p.Data]).length + k) = none := by
        intro k hk
        have := hw (k + 1) (by simp [hpay]; omega)
        simpa [Nat.add_assoc, Nat.add_comm 1 k] using this
      rw [List.cons_append, forwardAgentToClient]
      simp only [hp, if_false, hd, if_true, h0]
      rw [ih (written ++ [p.Data]) hps hw2, hpay]
      simp
    · have hpay : payloads (p :: ps) = payloads ps := by
        simp [payloads, List.filter_cons, hd]
      rw [List.cons_append, forwardAgentToClient]
      simp only [hp, if_false, hd]
      rw [hpay] at hw ⊢
      exact ih written hps hw


/-! ## The HTTP bridge: early exits -/

/-- C1: when the parsed cluster name has no registered tunnel (`GetTunnel` returns nil),
`ServeHTTP` answers with the single status 503 and calls neither `NewPacketConn` nor `Send` nor
`Hijack`. -/
theorem ServeHTTP_no_tunnel (h : userServerHTTPHandler) (w : ResponseWriter) (r : Request)
    (clusterName : GoString)
    (hparse : h.ParseClusterName r = Except.ok clusterName)
    (htun : h.GetTunnel clusterName = none) :
    statusCodes (ServeHTTP h w r) = [503] ∧
      ∀ e ∈ ServeHTTP h w r,
        e.isNewPacketConn = false ∧ e.isSend = false ∧ e.isHijack = false := by
  simp [ServeHTTP, hparse, htun, statusCodes, StatusServiceUnavailable, Event.isNewPacketConn,
    Event.isSend, Event.isHijack]

/-- C4: when the cluster-name parser returns an error, `ServeHTTP` answers with the single
status 400 and calls neither `GetTunnel` nor `NewPacketConn` nor `Send` nor `Hijack`. -/
theorem ServeHTTP_parse_error (h : userServerHTTPHandler) (w : ResponseWriter) (r : Request)
    (err : GoError)
    (hparse : h.ParseClusterName r = Except.error err) :
    statusCodes (ServeHTTP h w r) = [400] ∧
      ∀ e ∈ ServeHTTP h w r,
        e.isGetTunnel = false ∧ e.isNewPacketConn = false ∧ e.isSend = false ∧
          e.isHijack = false := by
  simp [ServeHTTP, hparse, statusCodes, StatusBadRequest, Event.isGetTunnel,
    Event.isNewPacketConn, Event.isSend, Event.isHijack]

/-- C3: when the stream carries no metadata, or metadata without a `cluster-name` value,
`Tunnel` returns a non-nil error, makes no call at all on the tunnel manager (so `NewTunnel`
is not called) and leaves the registry as it was. -/
theorem Tunnel_missing_cluster_name {σ ι : Type} (tunnelManager : TunnelManager σ ι)
    (stream : TunnelStream) (reg : σ)
    (hmd : stream.FromIncomingContext = none ∨
      ∃ md, stream.FromIncomingContext = some md ∧ md.Get (goStr "cluster-name") = []) :
    (∃ err, (Tunnel tunnelManager stream reg).1 = some err) ∧
      (Tunnel tunnelManager stream reg).2.1 = reg ∧
      (Tunnel tunnelManager stream reg).2.2 = [] := by
  rcases hmd with hnone | ⟨md, hsome, hget⟩
  · simp [Tunnel, hnone]
  · simp [Tunnel, hsome, hget]

theorem Tunnel_missing_cluster_name_witness :
    (∃ err, (Tunnel exampleTunnelManager anonymousStream [goStr "cluster0"]).1 = some err) ∧
      (Tunnel exampleTunnelManager anonymousStream [goStr "cluster0"]).2.1 = [goStr "cluster0"] ∧
      (Tunnel exampleTunnelManager anonymousStream [goStr "cluster0"]).2.2 = [] :=
  Tunnel_missing_cluster_name exampleTunnelManager anonymousStream [goStr "cluster0"]
    (Or.inr ⟨_, rfl, by decide⟩)

theorem ServeHTTP_no_tunnel_witness :
    statusCodes (ServeHTTP unknownClusterHandler hijackableWriter exampleRequest) = [503] ∧
      ∀ e ∈ ServeHTTP unknownClusterHandler hijackableWriter exampleRequest,
        e.isNewPacketConn = false ∧ e.isSend = false ∧ e.isHijack = false :=
  ServeHTTP_no_tunnel unknownClusterHandler hijackableWriter exampleRequest
    (goStr "unknown-cluster") rfl (by simp [unknownClusterHandler]; decide)

theorem ServeHTTP_parse_error_witness :
    statusCodes (ServeHTTP failingParserHandler hijackableWriter exampleRequest) = [400] ∧
      ∀ e ∈ ServeHTTP failingParserHandler hijackableWriter exampleRequest,
        e.isGetTunnel = false ∧ e.isNewPacketConn = false ∧ e.isSend = false ∧
          e.isHijack = false :=
  ServeHTTP_parse_error failingParserHandler hijackableWriter exampleRequest
    (GoError.foreign (goStr "no cluster in path")) rfl

/-! ## Agent errors in `forwardAgentToClient` -/

/-- C2: an `ERROR` packet with message `m` that arrives before any payload has been forwarded
(only packets with an empty payload came before it) makes `forwardAgentToClient` hand to the
client's `Write` exactly one chunk, the response with status line `HTTP/1.1 502 Bad Gateway`, a
`Content-Length` equal to the byte length of `m` and the body `m`, and return a non-nil
error. -/
theorem forwardAgentToClient_error_before_data (writeErr : Nat → Option GoError)
    (pre rest : List Packet) (packet : Packet)
    (hpre : ∀ p ∈ pre, p.Code ≠ ControlCode.ERROR ∧ p.Data = [])
    (herr : packet.Code = ControlCode.ERROR) :
    (forwardAgentToClient writeErr (pre ++ packet :: rest) []).1 =
        [goStr "HTTP/1.1 502 Bad Gateway\r\n" ++
          (goStr "Content-Type: text/plain\r\nContent-Length: " ++
            (fmtInt (packet.ErrorMessage.length : Nat) ++
              (goStr "\r\nConnection: close\r\n\r\n" ++ packet.ErrorMessage)))] ∧
      (forwardAgentToClient writeErr (pre ++ packet :: rest) []).2 =
        some (GoError.errorf (goStr "agent error: " ++ packet.ErrorMessage)) ∧
      (forwardAgentToClient writeErr (pre ++ packet :: rest) []).2 ≠ none := by
  have hpay : payloads pre = [] := by
    simp only [payloads, List.map_eq_nil_iff, List.filter_eq_nil_iff]
    intro p hp
    simp [(hpre p hp).2]
  have hpass := forwardAgentToClient_pass writeErr pre (packet :: rest) []
    (fun p hp => (hpre p hp).1) (by simp [hpay])
  rw [hpass, hpay, forwardAgentToClient]
  simp [herr, errorResponse_eq]

theorem forwardAgentToClient_error_before_data_witness :
    (forwardAgentToClient (fun _ => none) ([emptyPacket] ++ errorPacket :: [dataPacket]) []).1 =
        [goStr "HTTP/1.1 502 Bad Gateway\r\n" ++
          (goStr "Content-Type: text/plain\r\nContent-Length: " ++
            (fmtInt (errorPacket.ErrorMessage.length : Nat) ++
              (goStr "\r\nConnection: close\r\n\r\n" ++ errorPacket.ErrorMessage)))] ∧
      (forwardAgentToClient (fun _ => none) ([emptyPacket] ++ errorPacket :: [dataPacket]) []).2 =
        some (GoError.errorf (goStr "agent error: " ++ errorPacket.ErrorMessage)) ∧
      (forwardAgentToClient (fun _ => none) ([emptyPacket] ++ errorPacket :: [dataPacket]) []).2 ≠
        none :=
  forwardAgentToClient_error_before_data (fun _ => none) [emptyPacket] [dataPacket] errorPacket
    (by decide) (by decide)

/-- C9, as the claim states it, fails: after the payload `a` has been written to the client, the
`ERROR` packet makes `forwardAgentToClient` hand a second chunk to the client's `Write`, the 502
response, so the log of writes is not the one payload forwarded before. -/
theorem forwardAgentToClient_error_after_data_writes :
    (forwardAgentToClient (fun _ => none) [dataPacket, errorPacket] []).1 =
        [goStr "a",
          goStr ("HTTP/1.1 502 Bad Gateway\r\nContent-Type: text/plain\r\nContent-Length: 20\r\n" ++
            "Connection: close\r\n\r\nupstream unreachable")] ∧
      (forwardAgentToClient (fun _ => none) [dataPacket, errorPacket] []).1 ≠ [goStr "a"] := by
  decide

/-- C9, amended: once forwarding has begun (at least one non-empty payload has been written,
every write so far having succeeded), an `ERROR` packet with message `m` ends the pump after one
more write: the log of writes is the payloads forwarded so far followed by the one 502 response
carrying `m`, no later packet is forwarded, and the function returns a non-nil error. -/
theorem forwardAgentToClient_error_after_data (writeErr : Nat → Option GoError)
    (pre rest : List Packet) (packet : Packet)
    (hpre : ∀ p ∈ pre, p.Code ≠ ControlCode.ERROR)
    (_hbegun : payloads pre ≠ [])
    (hw : ∀ k, k < (payloads pre).length → writeErr k = none)
    (herr : packet.Code = ControlCode.ERROR) :
    (forwardAgentToClient writeErr (pre ++ packet :: rest) []).1 =
        payloads pre ++
          [goStr "HTTP/1.1 502 Bad Gateway\r\n" ++
            (goStr "Content-Type: text/plain\r\nContent-Length: " ++
              (fmtInt (packet.ErrorMessage.length : Nat) ++
                (goStr "\r\nConnection: close\r\n\r\n" ++ packet.ErrorMessage)))] ∧
      (forwardAgentToClient writeErr (pre ++ packet :: rest) []).2 =
        some (GoError.errorf (goStr "agent error: " ++ packet.ErrorMessage)) := by
  have hpass := forwardAgentToClient_pass writeErr pre (packet :: rest) [] hpre
    (by simpa using hw)
  rw [hpass, forwardAgentToClient]
  simp [herr, errorResponse_eq]

theorem forwardAgentToClient_error_after_data_witness :
    (forwardAgentToClient (fun _ => none) ([dataPacket] ++ errorPacket :: [dataPacket]) []).1 =
        payloads [dataPacket] ++
          [goStr "HTTP/1.1 502 Bad Gateway\r\n" ++
            (goStr "Content-Type: text/plain\r\nContent-Length: " ++
              (fmtInt (errorPacket.ErrorMessage.length : Nat) ++
                (goStr "\r\nConnection: close\r\n\r\n" ++ errorPacket.ErrorMessage)))] ∧
      (forwardAgentToClient (fun _ => none) ([dataPacket] ++ errorPacket :: [dataPacket]) []).2 =
        some (GoError.errorf (goStr "agent error: " ++ errorPacket.ErrorMessage)) :=
  forwardAgentToClient_error_after_data (fun _ => none) [dataPacket] [dataPacket] errorPacket
    (by decide) (by decide) (fun _ _ => rfl) (by decide)

/-! ## The handshake -/

theorem valueLines_foldl (name : GoString) (values : List GoString) (acc : Bytes) :
    values.foldl (fun acc value => acc ++ (name ++ goStr ": " ++ value ++ goStr "\r\n")) acc =
      acc ++ valueLines name values := by
  induction values generalizing acc with
  | nil => simp [valueLines]
  | cons value values ih =>
    rw [List.foldl_cons, ih]
    simp [valueLines, List.append_assoc]

theorem appendHeaderLines_eq (requestData : Bytes) (header : Header) :
    appendHeaderLines requestData header = requestData ++ headerLines header := by
  unfold appendHeaderLines
  induction header generalizing requestData with
  | nil => simp [headerLines]
  | cons entry rest ih =>
    rw [List.foldl_cons, valueLines_foldl, ih]
    simp [headerLines, List.append_assoc]

/-- With a readable body, `sendInitialHTTPRequest` is one `Send` of a `DATA` packet that carries
the connection identifier and the serialized request. -/
theorem sendInitialHTTPRequest_readable (pc : PacketConn) (r : Request) (tr : List Event)
    (hbody : ∀ b e, r.Body ≠ some (b, some e)) :
    sendInitialHTTPRequest pc r tr =
      pc.Send { ConnId := pc.ID, Code := ControlCode.DATA, Data := serializedRequest r } tr := by
  have hver : (if r.ProtoMajor ≠ 0 ∨ r.ProtoMinor ≠ 0 then
        goStr "HTTP/" ++ fmtInt r.ProtoMajor ++ goStr "." ++ fmtInt r.ProtoMinor
      else goStr "HTTP/1.1") = httpVersion r := by
    unfold httpVersion
    by_cases hz : r.ProtoMajor = 0 ∧ r.ProtoMinor = 0
    · simp [hz.1, hz.2]
    · have hnz : r.ProtoMajor ≠ 0 ∨ r.ProtoMinor ≠ 0 := by
        by_contra hcon
        exact hz ⟨not_not.mp (fun h1 => hcon (Or.inl h1)), not_not.mp (fun h2 => hcon (Or.inr h2))⟩
      rw [if_pos hnz, if_neg hz]
  have hdata : appendHeaderLines
        (if r.Header.Get (goStr "Host") = [] then
          ([] ++ (r.Method ++ goStr " " ++ r.RequestURI ++ goStr " " ++ httpVersion r ++
            goStr "\r\n")) ++ (goStr "Host: " ++ r.Host ++ goStr "\r\n")
        else [] ++ (r.Method ++ goStr " " ++ r.RequestURI ++ goStr " " ++ httpVersion r ++
            goStr "\r\n")) r.Header ++ goStr "\r\n" =
      requestLine r ++ hostLine r ++ headerLines r.Header ++ goStr "\r\n" := by
    rw [appendHeaderLines_eq]
    unfold requestLine hostLine
    by_cases hh : r.Header.Get (goStr "Host") = []
    · simp only [if_pos hh, List.nil_append]
    · simp only [if_neg hh, List.nil_append, List.append_nil]
  unfold sendInitialHTTPRequest
  simp only [hver]
  cases hb : r.Body with
  | none =>
    simp only [hdata]
    simp [serializedRequest, requestBody, hb]
  | some body =>
    obtain ⟨bodyBytes, readErr⟩ := body
    cases readErr with
    | some e => exact absurd hb (hbody bodyBytes e)
    | none =>
      simp only [hdata]
      simp [serializedRequest, requestBody, hb]

/-- C5: with a readable body, the one packet that `sendInitialHTTPRequest` sends begins with
`<Method> <RequestURI> HTTP/<ProtoMajor>.<ProtoMinor>\r\n` for every request whose version is
not (0, 0), and with `<Method> <RequestURI> HTTP/1.1\r\n` only when both numbers are 0. -/
theorem sendInitialHTTPRequest_version (pc : PacketConn) (r : Request) (tr : List Event)
    (hbody : ∀ b e, r.Body ≠ some (b, some e)) :
    ∃ tail : Bytes,
      (sendInitialHTTPRequest pc r tr).2 =
        tr ++ [Event.Send
          { ConnId := pc.ID
            Code := ControlCode.DATA
            Data := r.Method ++ goStr " " ++ r.RequestURI ++ goStr " " ++
              (if r.ProtoMajor = 0 ∧ r.ProtoMinor = 0 then goStr "HTTP/1.1"
                else goStr "HTTP/" ++ fmtInt r.ProtoMajor ++ goStr "." ++ fmtInt r.ProtoMinor) ++
              goStr "\r\n" ++ tail }] := by
  refine ⟨hostLine r ++ headerLines r.Header ++ goStr "\r\n" ++ requestBody r, ?_⟩
  rw [sendInitialHTTPRequest_readable pc r tr hbody]
  simp [PacketConn.Send, serializedRequest, requestLine, httpVersion, List.append_assoc]

theorem sendInitialHTTPRequest_version_witness :
    ∃ tail : Bytes,
      (sendInitialHTTPRequest examplePacketConn exampleRequest []).2 =
        [] ++ [Event.Send
          { ConnId := examplePacketConn.ID
            Code := ControlCode.DATA
            Data := exampleRequest.Method ++ goStr " " ++ exampleRequest.RequestURI ++ goStr " " ++
              (if exampleRequest.ProtoMajor = 0 ∧ exampleRequest.ProtoMinor = 0 then
                  goStr "HTTP/1.1"
                else goStr "HTTP/" ++ fmtInt exampleRequest.ProtoMajor ++ goStr "." ++
                  fmtInt exampleRequest.ProtoMinor) ++
              goStr "\r\n" ++ tail }] :=
  sendInitialHTTPRequest_version examplePacketConn exampleRequest []
    (fun b e hb => by simp [exampleRequest] at hb)

/-- The log of a run of `ServeHTTP` in which parsing, tunnel lookup, connection allocation and
both sends succeed, on a writer that supports hijacking and with a readable body, up to the
call of `Hijack`. -/
theorem ServeHTTP_established (h : userServerHTTPHandler) (w : ResponseWriter) (r : Request)
    (clusterName : GoString) (tun : Tun) (pc : PacketConn) (hijacker : Hijacker)
    (hparse : h.ParseClusterName r = Except.ok clusterName)
    (htun : h.GetTunnel clusterName = some tun)
    (hpc : tun.NewPacketConn (Context.WithTimeout r.Context (30 * Second)) = Except.ok pc)
    (hhij : w.Hijacker = some hijacker)
    (hbody : ∀ b e, r.Body ≠ some (b, some e))
    (hsend0 : ∀ p, pc.sendErr 0 p = none)
    (hsend1 : ∀ p, pc.sendErr 1 p = none) :
    ServeHTTP h w r =
      [Event.GetTunnel clusterName,
        Event.NewPacketConn (Context.WithTimeout r.Context (30 * Second)),
        Event.Send { ConnId := pc.ID, Code := ControlCode.DATA, Data := [] },
        Event.Send { ConnId := pc.ID, Code := ControlCode.DATA, Data := serializedRequest r },
        Event.Hijack] ++
      (match hijacker.Hijack with
        | some _ => [Event.Close pc.ID, Event.cancel]
        | none =>
          [Event.forwardTraffic (Context.WithTimeout r.Context (30 * Second)) pc.ID,
            Event.clientConnClose, Event.Close pc.ID, Event.cancel]) := by
  unfold ServeHTTP
  simp only [hparse, htun, hpc, hhij, PacketConn.Send, List.cons_append, List.nil_append,
    sentPackets, List.length_nil, hsend0]
  rw [sendInitialHTTPRequest_readable pc r _ hbody]
  simp only [PacketConn.Send, List.cons_append, List.nil_append, sentPackets, List.length_cons,
    List.length_nil, hsend1]
  cases hijacker.Hijack <;> simp

/-- C6: on every run in which parsing, tunnel lookup, connection allocation and both sends
succeed (which needs a writer that supports hijacking and a readable request body, as the sends
are not attempted otherwise), `Hijack` is called, and the packets sent before it are exactly two,
in this order: a `DATA` packet with an empty payload, then a `DATA` packet whose payload is the
serialized HTTP request, both with the `ConnId` of the new connection. -/
theorem ServeHTTP_handshake (h : userServerHTTPHandler) (w : ResponseWriter) (r : Request)
    (clusterName : GoString) (tun : Tun) (pc : PacketConn) (hijacker : Hijacker)
    (hparse : h.ParseClusterName r = Except.ok clusterName)
    (htun : h.GetTunnel clusterName = some tun)
    (hpc : tun.NewPacketConn (Context.WithTimeout r.Context (30 * Second)) = Except.ok pc)
    (hhij : w.Hijacker = some hijacker)
    (hbody : ∀ b e, r.Body ≠ some (b, some e))
    (hsend0 : ∀ p, pc.sendErr 0 p = none)
    (hsend1 : ∀ p, pc.sendErr 1 p = none) :
    ∃ before after : List Event,
      ServeHTTP h w r = before ++ Event.Hijack :: after ∧
        (∀ e ∈ before, e.isHijack = false) ∧
        sentPackets before =
          [{ ConnId := pc.ID, Code := ControlCode.DATA, Data := [] },
            { ConnId := pc.ID, Code := ControlCode.DATA, Data := serializedRequest r }] := by
  refine ⟨[Event.GetTunnel clusterName,
      Event.NewPacketConn (Context.WithTimeout r.Context (30 * Second)),
      Event.Send { ConnId := pc.ID, Code := ControlCode.DATA, Data := [] },
      Event.Send { ConnId := pc.ID, Code := ControlCode.DATA, Data := serializedRequest r }],
    (match hijacker.Hijack with
      | some _ => [Event.Close pc.ID, Event.cancel]
      | none =>
        [Event.forwardTraffic (Context.WithTimeout r.Context (30 * Second)) pc.ID,
          Event.clientConnClose, Event.Close pc.ID, Event.cancel]), ?_, ?_, ?_⟩
  · rw [ServeHTTP_established h w r clusterName tun pc hijacker hparse htun hpc hhij hbody
      hsend0 hsend1]
    simp
  · simp [Event.isHijack]
  · simp [sentPackets]

theorem ServeHTTP_handshake_witness :
    ∃ before after : List Event,
      ServeHTTP exampleHandler hijackableWriter exampleRequest = before ++ Event.Hijack :: after ∧
        (∀ e ∈ before, e.isHijack = false) ∧
        sentPackets before =
          [{ ConnId := examplePacketConn.ID, Code := ControlCode.DATA, Data := [] },
            { ConnId := examplePacketConn.ID, Code := ControlCode.DATA,
              Data := serializedRequest exampleRequest }] :=
  ServeHTTP_handshake exampleHandler hijackableWriter exampleRequest (goStr "cluster1") exampleTun
    examplePacketConn { Hijack := none } rfl (by simp [exampleHandler]) rfl rfl
    (fun b e hb => by simp [exampleRequest] at hb) (fun _ => rfl) (fun _ => rfl)

/-- C7: on the run of `ServeHTTP` for the example request, where the handshake succeeds, the two
connection-establishing packets are the only packets sent and both leave `TargetAddress`
empty. -/
theorem ServeHTTP_handshake_targetAddress :
    sentPackets (ServeHTTP exampleHandler hijackableWriter exampleRequest) =
        [{ ConnId := 7, Code := ControlCode.DATA, Data := [] },
          { ConnId := 7, Code := ControlCode.DATA,
            Data := goStr ("GET /api/v1/pods?watch=1 HTTP/1.0\r\nHost: hub.example\r\n" ++
              "Accept: */*\r\n\r\nhi") }] ∧
      ∀ p ∈ sentPackets (ServeHTTP exampleHandler hijackableWriter exampleRequest),
        p.TargetAddress = [] := by
  have hs : serializedRequest exampleRequest =
      goStr ("GET /api/v1/pods?watch=1 HTTP/1.0\r\nHost: hub.example\r\n" ++
        "Accept: */*\r\n\r\nhi") := by
    decide
  rw [ServeHTTP_established exampleHandler hijackableWriter exampleRequest (goStr "cluster1")
    exampleTun examplePacketConn { Hijack := none } rfl (by simp [exampleHandler]) rfl rfl
    (fun b e hb => by simp [exampleRequest] at hb) (fun _ => rfl) (fun _ => rfl)]
  simp [sentPackets, hs, examplePacketConn]

/-! ## The context of the forwarding phase -/

/-- C8: on the run of `ServeHTTP` for the example request, whose own context carries no timeout,
the context handed to `forwardTraffic` is the one built by `context.WithTimeout` for the
connection setup, and it carries the timeout of 30 seconds. -/
theorem ServeHTTP_forwardTraffic_context :
    forwardContexts (ServeHTTP exampleHandler hijackableWriter exampleRequest) =
        [Context.WithTimeout exampleRequest.Context (30 * Second)] ∧
      (Context.WithTimeout exampleRequest.Context (30 * Second)).timeouts = [30000000000] ∧
      exampleRequest.Context.timeouts = [] := by
  refine ⟨?_, by decide, by decide⟩
  rw [ServeHTTP_established exampleHandler hijackableWriter exampleRequest (goStr "cluster1")
    exampleTun examplePacketConn { Hijack := none } rfl (by simp [exampleHandler]) rfl rfl
    (fun b e hb => by simp [exampleRequest] at hb) (fun _ => rfl) (fun _ => rfl)]
  simp [forwardContexts]

/-! ## Release of the packet connection -/

theorem isClose_append {a b : List Event} (ha : ∀ e ∈ a, e.isClose = false)
    (hb : ∀ e ∈ b, e.isClose = false) : ∀ e ∈ a ++ b, e.isClose = false := by
  intro e he
  rcases List.mem_append.mp he with he | he
  · exact ha e he
  · exact hb e he

theorem sendInitialHTTPRequest_log (pc : PacketConn) (r : Request) (tr : List Event) :
    ∃ sent : List Event,
      (sendInitialHTTPRequest pc r tr).2 = tr ++ sent ∧ ∀ e ∈ sent, e.isClose = false := by
  unfold sendInitialHTTPRequest
  cases hb : r.Body with
  | none =>
    simp only [PacketConn.Send]
    exact ⟨[_], rfl, by simp [Event.isClose]⟩
  | some body =>
    obtain ⟨bodyBytes, readErr⟩ := body
    cases readErr with
    | some e => exact ⟨[], by simp, by simp⟩
    | none =>
      simp only [PacketConn.Send]
      exact ⟨[_], rfl, by simp [Event.isClose]⟩

/-- C10: in every run of `ServeHTTP` that reaches `NewPacketConn`: when `NewPacketConn` succeeds,
`Close` is called on that packet connection exactly once, as the last call but the deferred
`cancel`, whichever step ends the request; when `NewPacketConn` fails, `Close` is not
called. -/
theorem ServeHTTP_closes_packetConn (h : userServerHTTPHandler) (w : ResponseWriter)
    (r : Request) (clusterName : GoString) (tun : Tun)
    (hparse : h.ParseClusterName r = Except.ok clusterName)
    (htun : h.GetTunnel clusterName = some tun) :
    match tun.NewPacketConn (Context.WithTimeout r.Context (30 * Second)) with
    | Except.ok pc =>
      ∃ before : List Event,
        ServeHTTP h w r = before ++ [Event.Close pc.ID, Event.cancel] ∧
          ∀ e ∈ before, e.isClose = false
    | Except.error _ => ∀ e ∈ ServeHTTP h w r, e.isClose = false := by
  unfold ServeHTTP
  simp only [hparse, htun]
  cases hpc : tun.NewPacketConn (Context.WithTimeout r.Context (30 * Second)) with
  | error err => simp [Event.isClose]
  | ok pc =>
    have h2 : ∀ e ∈ [Event.GetTunnel clusterName,
        Event.NewPacketConn (Context.WithTimeout r.Context (30 * Second))],
        e.isClose = false := by
      simp [Event.isClose]
    simp only
    cases hhij : w.Hijacker with
    | none =>
      refine ⟨[Event.GetTunnel clusterName,
        Event.NewPacketConn (Context.WithTimeout r.Context (30 * Second)),
        Event.Error (goStr "HTTP tunneling not supported") StatusInternalServerError], by simp, ?_⟩
      simp [Event.isClose]
    | some hijacker =>
      simp only [PacketConn.Send, List.cons_append, List.nil_append, sentPackets,
        List.length_nil]
      cases hs0 : pc.sendErr 0 { ConnId := pc.ID, Code := ControlCode.DATA, Data := [] } with
      | some e0 =>
        refine ⟨[Event.GetTunnel clusterName,
          Event.NewPacketConn (Context.WithTimeout r.Context (30 * Second)),
          Event.Send { ConnId := pc.ID, Code := ControlCode.DATA, Data := [] },
          Event.Error (goStr "Failed to establish tunnel") StatusBadGateway], by simp, ?_⟩
        simp [Event.isClose]
      | none =>
        simp only
        have h3 : ∀ e ∈ [Event.GetTunnel clusterName,
            Event.NewPacketConn (Context.WithTimeout r.Context (30 * Second)),
            Event.Send { ConnId := pc.ID, Code := ControlCode.DATA, Data := [] }],
            e.isClose = false := by
          simp [Event.isClose]
        obtain ⟨sent, hsent, hclose⟩ := sendInitialHTTPRequest_log pc r
          [Event.GetTunnel clusterName,
            Event.NewPacketConn (Context.WithTimeout r.Context (30 * Second)),
            Event.Send { ConnId := pc.ID, Code := ControlCode.DATA, Data := [] }]
        rcases hres : sendInitialHTTPRequest pc r
          [Event.GetTunnel clusterName,
            Event.NewPacketConn (Context.WithTimeout r.Context (30 * Second)),
            Event.Send { ConnId := pc.ID, Code := ControlCode.DATA, Data := [] }]
          with ⟨e1, tr4⟩
        rw [hres] at hsent
        simp only at hsent
        have h4 : ∀ e ∈ tr4, e.isClose = false := by
          rw [hsent]
          exact isClose_append h3 hclose
        cases e1 with
        | some e =>
          refine ⟨tr4 ++ [Event.Error (goStr "Failed to establish tunnel") StatusBadGateway],
            by simp, ?_⟩
          exact isClose_append h4 (by simp [Event.isClose])
        | none =>
          simp only
          cases hijacker.Hijack with
          | some e =>
            exact ⟨tr4 ++ [Event.Hijack], by simp,
              isClose_append h4 (by simp [Event.isClose])⟩
          | none =>
            refine ⟨tr4 ++ [Event.Hijack,
              Event.forwardTraffic (Context.WithTimeout r.Context (30 * Second)) pc.ID,
              Event.clientConnClose], by simp, ?_⟩
            exact isClose_append h4 (by simp [Event.isClose])

theorem ServeHTTP_closes_packetConn_witness :
    match exampleTun.NewPacketConn (Context.WithTimeout exampleRequest.Context (30 * Second)) with
    | Except.ok pc =>
      ∃ before : List Event,
        ServeHTTP exampleHandler plainWriter exampleRequest =
            before ++ [Event.Close pc.ID, Event.cancel] ∧
          ∀ e ∈ before, e.isClose = false
    | Except.error _ =>
      ∀ e ∈ ServeHTTP exampleHandler plainWriter exampleRequest, e.isClose = false :=
  ServeHTTP_closes_packetConn exampleHandler plainWriter exampleRequest (goStr "cluster1")
    exampleTun rfl (by simp [exampleHandler])

/-! ## The HTTP bridge: failures after the connection is allocated -/

theorem statusCodes_append (a b : List Event) :
    statusCodes (a ++ b) = statusCodes a ++ statusCodes b := by
  induction a with
  | nil => rfl
  | cons e a ih => cases e <;> simp [statusCodes, ih]

theorem sentPackets_append (a b : List Event) :
    sentPackets (a ++ b) = sentPackets a ++ sentPackets b := by
  induction a with
  | nil => rfl
  | cons e a ih => cases e <;> simp [sentPackets, ih]

/-- The log after `sendInitialHTTPRequest` is the log before it, with at most one `Send`
appended; nothing is appended when the body cannot be read. -/
theorem sendInitialHTTPRequest_sends (pc : PacketConn) (r : Request) (tr : List Event) :
    (sendInitialHTTPRequest pc r tr).2 = tr ∨
      ∃ packet, (sendInitialHTTPRequest pc r tr).2 = tr ++ [Event.Send packet] := by
  unfold sendInitialHTTPRequest
  cases hb : r.Body with
  | none => exact Or.inr ⟨_, rfl⟩
  | some body =>
    obtain ⟨bodyBytes, readErr⟩ := body
    cases readErr with
    | some e => exact Or.inl rfl
    | none => exact Or.inr ⟨_, rfl⟩

/-- The log of `ServeHTTP` when sending a handshake packet fails: the single status is 502, and
there is no `Hijack`. -/
theorem ServeHTTP_send_failure_log (h : userServerHTTPHandler) (w : ResponseWriter) (r : Request)
    (clusterName : GoString) (tun : Tun) (pc : PacketConn) (hijacker : Hijacker)
    (hparse : h.ParseClusterName r = Except.ok clusterName)
    (htun : h.GetTunnel clusterName = some tun)
    (hpc : tun.NewPacketConn (Context.WithTimeout r.Context (30 * Second)) = Except.ok pc)
    (hhij : w.Hijacker = some hijacker)
    (hfail :
      (∃ err, pc.sendErr 0 { ConnId := pc.ID, Code := ControlCode.DATA, Data := [] } = some err) ∨
      (pc.sendErr 0 { ConnId := pc.ID, Code := ControlCode.DATA, Data := [] } = none ∧
        ∃ err, (sendInitialHTTPRequest pc r
          [Event.GetTunnel clusterName,
            Event.NewPacketConn (Context.WithTimeout r.Context (30 * Second)),
            Event.Send { ConnId := pc.ID, Code := ControlCode.DATA, Data := [] }]).1 =
          some err)) :
    statusCodes (ServeHTTP h w r) = [502] ∧
      (∀ e ∈ ServeHTTP h w r, e.isHijack = false) ∧
      ((∃ err, pc.sendErr 0 { ConnId := pc.ID, Code := ControlCode.DATA, Data := [] } =
          some err) →
        sentPackets (ServeHTTP h w r) =
          [{ ConnId := pc.ID, Code := ControlCode.DATA, Data := [] }]) := by
  unfold ServeHTTP
  simp only [hparse, htun, hpc, hhij, PacketConn.Send, List.cons_append, List.nil_append,
    sentPackets, List.length_nil]
  rcases hfail with ⟨err, h0⟩ | ⟨h0, err, h1⟩
  · simp [h0, statusCodes, sentPackets, StatusBadGateway, Event.isHijack]
  · simp only [h0]
    rcases hres : sendInitialHTTPRequest pc r
        [Event.GetTunnel clusterName,
          Event.NewPacketConn (Context.WithTimeout r.Context (30 * Second)),
          Event.Send { ConnId := pc.ID, Code := ControlCode.DATA, Data := [] }]
      with ⟨e1, tr4⟩
    rw [hres] at h1
    simp only at h1
    subst h1
    have hlog := sendInitialHTTPRequest_sends pc r
      [Event.GetTunnel clusterName,
        Event.NewPacketConn (Context.WithTimeout r.Context (30 * Second)),
        Event.Send { ConnId := pc.ID, Code := ControlCode.DATA, Data := [] }]
    rw [hres] at hlog
    simp only at hlog
    rcases hlog with htr | ⟨packet, htr⟩
    · subst htr
      simp [statusCodes, StatusBadGateway, Event.isHijack]
    · subst htr
      simp [statusCodes, StatusBadGateway, Event.isHijack]

/-- C11: when sending a handshake packet fails, be it the `Send` of the initial empty packet or
`sendInitialHTTPRequest`, `ServeHTTP` answers with a single status, which is 502 or 503 (it is
502), does not call `Hijack`, and, when it is the first send that fails, sends no second
packet. -/
theorem ServeHTTP_send_failure (h : userServerHTTPHandler) (w : ResponseWriter) (r : Request)
    (clusterName : GoString) (tun : Tun) (pc : PacketConn) (hijacker : Hijacker)
    (hparse : h.ParseClusterName r = Except.ok clusterName)
    (htun : h.GetTunnel clusterName = some tun)
    (hpc : tun.NewPacketConn (Context.WithTimeout r.Context (30 * Second)) = Except.ok pc)
    (hhij : w.Hijacker = some hijacker)
    (hfail :
      (∃ err, pc.sendErr 0 { ConnId := pc.ID, Code := ControlCode.DATA, Data := [] } = some err) ∨
      (pc.sendErr 0 { ConnId := pc.ID, Code := ControlCode.DATA, Data := [] } = none ∧
        ∃ err, (sendInitialHTTPRequest pc r
          [Event.GetTunnel clusterName,
            Event.NewPacketConn (Context.WithTimeout r.Context (30 * Second)),
            Event.Send { ConnId := pc.ID, Code := ControlCode.DATA, Data := [] }]).1 =
          some err)) :
    (∃ code, statusCodes (ServeHTTP h w r) = [code] ∧ (code = 502 ∨ code = 503)) ∧
      (∀ e ∈ ServeHTTP h w r, e.isHijack = false) ∧
      ((∃ err, pc.sendErr 0 { ConnId := pc.ID, Code := ControlCode.DATA, Data := [] } =
          some err) →
        sentPackets (ServeHTTP h w r) =
          [{ ConnId := pc.ID, Code := ControlCode.DATA, Data := [] }]) := by
  obtain ⟨hcode, hhijack, hfirst⟩ :=
    ServeHTTP_send_failure_log h w r clusterName tun pc hijacker hparse htun hpc hhij hfail
  exact ⟨⟨502, hcode, Or.inl rfl⟩, hhijack, hfirst⟩

theorem ServeHTTP_send_failure_witness :
    (∃ code, statusCodes (ServeHTTP
        { ParseClusterName := fun _ => Except.ok (goStr "cluster1"),
          GetTunnel := fun _ => some { NewPacketConn := fun _ => Except.ok closedPacketConn } }
        hijackableWriter exampleRequest) = [code] ∧ (code = 502 ∨ code = 503)) ∧
      (∀ e ∈ ServeHTTP
          { ParseClusterName := fun _ => Except.ok (goStr "cluster1"),
            GetTunnel := fun _ => some { NewPacketConn := fun _ => Except.ok closedPacketConn } }
          hijackableWriter exampleRequest, e.isHijack = false) ∧
      ((∃ err, closedPacketConn.sendErr 0
          { ConnId := closedPacketConn.ID, Code := ControlCode.DATA, Data := [] } = some err) →
        sentPackets (ServeHTTP
          { ParseClusterName := fun _ => Except.ok (goStr "cluster1"),
            GetTunnel := fun _ => some { NewPacketConn := fun _ => Except.ok closedPacketConn } }
          hijackableWriter exampleRequest) =
          [{ ConnId := closedPacketConn.ID, Code := ControlCode.DATA, Data := [] }]) :=
  ServeHTTP_send_failure _ hijackableWriter exampleRequest (goStr "cluster1")
    { NewPacketConn := fun _ => Except.ok closedPacketConn } closedPacketConn { Hijack := none }
    rfl rfl rfl rfl (Or.inl ⟨_, rfl⟩)

/-- C12: when the response writer does not support hijacking, `ServeHTTP` answers with the
single status 500, closes the allocated packet connection (once), sends no packet, and starts
neither `Hijack` nor `forwardTraffic`. -/
theorem ServeHTTP_hijack_unsupported (h : userServerHTTPHandler) (w : ResponseWriter)
    (r : Request) (clusterName : GoString) (tun : Tun) (pc : PacketConn)
    (hparse : h.ParseClusterName r = Except.ok clusterName)
    (htun : h.GetTunnel clusterName = some tun)
    (hpc : tun.NewPacketConn (Context.WithTimeout r.Context (30 * Second)) = Except.ok pc)
    (hhij : w.Hijacker = none) :
    statusCodes (ServeHTTP h w r) = [500] ∧
      closeCount pc.ID (ServeHTTP h w r) = 1 ∧
      forwardContexts (ServeHTTP h w r) = [] ∧
      sentPackets (ServeHTTP h w r) = [] ∧
      ∀ e ∈ ServeHTTP h w r, e.isHijack = false := by
  unfold ServeHTTP
  simp [hparse, htun, hpc, hhij, statusCodes, closeCount, forwardContexts, sentPackets,
    StatusInternalServerError, Event.isHijack, List.count_cons]

theorem ServeHTTP_hijack_unsupported_witness :
    statusCodes (ServeHTTP exampleHandler plainWriter exampleRequest) = [500] ∧
      closeCount examplePacketConn.ID (ServeHTTP exampleHandler plainWriter exampleRequest) = 1 ∧
      forwardContexts (ServeHTTP exampleHandler plainWriter exampleRequest) = [] ∧
      sentPackets (ServeHTTP exampleHandler plainWriter exampleRequest) = [] ∧
      ∀ e ∈ ServeHTTP exampleHandler plainWriter exampleRequest, e.isHijack = false :=
  ServeHTTP_hijack_unsupported exampleHandler plainWriter exampleRequest (goStr "cluster1")
    exampleTun examplePacketConn rfl (by simp [exampleHandler]) rfl rfl

/-- C13: on the run of `ServeHTTP` for the example request on a writer whose `Hijack` returns
an error, `Hijack` is called after the two handshake packets and `ServeHTTP` returns without
writing any response: no status code, 502 or other, is sent. -/
theorem ServeHTTP_hijack_failure :
    ServeHTTP exampleHandler failingHijackWriter exampleRequest =
        [Event.GetTunnel (goStr "cluster1"),
          Event.NewPacketConn (Context.WithTimeout exampleRequest.Context (30 * Second)),
          Event.Send { ConnId := 7, Code := ControlCode.DATA, Data := [] },
          Event.Send
            { ConnId := 7, Code := ControlCode.DATA, Data := serializedRequest exampleRequest },
          Event.Hijack, Event.Close 7, Event.cancel] ∧
      statusCodes (ServeHTTP exampleHandler failingHijackWriter exampleRequest) = [] := by
  rw [ServeHTTP_established exampleHandler failingHijackWriter exampleRequest (goStr "cluster1")
    exampleTun examplePacketConn
    { Hijack := some (GoError.foreign (goStr "connection already hijacked")) } rfl
    (by simp [exampleHandler]) rfl rfl
    (fun b e hb => by simp [exampleRequest] at hb) (fun _ => rfl) (fun _ => rfl)]
  simp [statusCodes, examplePacketConn]

/-! ## The `Tunnel` RPC: the end of a tunnel -/

/-- C17: for a stream that supplies a `cluster-name` and for which `NewTunnel` succeeds, once
`Serve` returns with the result `e`, `Tunnel` has made three calls, `NewTunnel`, `Serve` and one
`RemoveTunnel(clusterName, conn.ID())` with the first supplied name, in this order, and it
returns exactly `e`; the registry at return is the one `RemoveTunnel` leaves. -/
theorem Tunnel_removes_and_returns {σ ι : Type} (tunnelManager : TunnelManager σ ι)
    (stream : TunnelStream) (reg reg1 reg2 : σ) (md : MD) (clusterName : GoString)
    (others : List GoString) (conn : Conn σ ι) (e : Option GoError)
    (hmd : stream.FromIncomingContext = some md)
    (hname : md.Get (goStr "cluster-name") = clusterName :: others)
    (hnew : tunnelManager.NewTunnel reg stream.Context clusterName stream = (Except.ok conn, reg1))
    (hserve : conn.Serve reg1 = (e, reg2)) :
    Tunnel tunnelManager stream reg =
      (e, tunnelManager.RemoveTunnel reg2 clusterName conn.ID,
        [RPCEvent.NewTunnel clusterName, RPCEvent.Serve,
          RPCEvent.RemoveTunnel clusterName conn.ID]) := by
  simp [Tunnel, hmd, hname, hnew, hserve]

theorem Tunnel_removes_and_returns_witness :
    Tunnel exampleTunnelManager namedStream [goStr "cluster0"] =
      (none, exampleTunnelManager.RemoveTunnel [goStr "cluster0", goStr "cluster1"]
          (goStr "cluster1") 1,
        [RPCEvent.NewTunnel (goStr "cluster1"), RPCEvent.Serve,
          RPCEvent.RemoveTunnel (goStr "cluster1") 1]) :=
  Tunnel_removes_and_returns exampleTunnelManager namedStream [goStr "cluster0"]
    [goStr "cluster0", goStr "cluster1"] [goStr "cluster0", goStr "cluster1"]
    [(goStr "cluster-name", [goStr "cluster1", goStr "cluster2"])] (goStr "cluster1")
    [goStr "cluster2"] { ID := 1, Serve := fun reg1 => (none, reg1) } none rfl (by decide) rfl rfl

/-! ## The two forwarding loops -/

theorem concatBytes_append (a b : List Bytes) :
    concatBytes (a ++ b) = concatBytes a ++ concatBytes b := by
  induction a with
  | nil => rfl
  | cons x a ih => simp [concatBytes, ih, List.append_assoc]

/-- With every `Send` succeeding, the packets that `forwardClientToAgent` sends carry, in order,
the bytes of the `Read` results that come before the first result with an error. -/
theorem forwardClientToAgent_sent (pc : PacketConn) (reads : List (Bytes × Option GoError))
    (tr : List Event) (hsend : ∀ k p, pc.sendErr k p = none) :
    concatBytes ((sentPackets (forwardClientToAgent pc reads tr).2).map (fun p => p.Data)) =
      concatBytes ((sentPackets tr).map (fun p => p.Data)) ++ bytesReadBeforeError reads := by
  induction reads generalizing tr with
  | nil => simp [forwardClientToAgent, bytesReadBeforeError]
  | cons read rest ih =>
    obtain ⟨data, err⟩ := read
    cases err with
    | some e => simp [forwardClientToAgent, bytesReadBeforeError]
    | none =>
      by_cases hd : data.length > 0
      · simp only [forwardClientToAgent, hd, if_true, PacketConn.Send, hsend]
        rw [ih]
        simp [sentPackets_append, sentPackets, concatBytes_append, concatBytes,
          bytesReadBeforeError, List.append_assoc]
      · have hnil : data = [] := by
          cases data with
          | nil => rfl
          | cons x xs => simp at hd
        simp only [forwardClientToAgent, hd, if_false]
        rw [ih]
        simp [bytesReadBeforeError, hnil]

/-- Every packet that `forwardClientToAgent` adds to the log is a `DATA` packet with the
connection's identifier and a non-empty payload, which is the bytes of one `Read`. -/
theorem forwardClientToAgent_packets (pc : PacketConn) (reads : List (Bytes × Option GoError))
    (tr : List Event) :
    ∀ p ∈ sentPackets (forwardClientToAgent pc reads tr).2,
      p ∈ sentPackets tr ∨
        (p.Code = ControlCode.DATA ∧ p.ConnId = pc.ID ∧ 0 < p.Data.length ∧
          p.TargetAddress = [] ∧ ∃ read ∈ reads, p.Data = read.1) := by
  induction reads generalizing tr with
  | nil => intro p hp; exact Or.inl (by simpa [forwardClientToAgent] using hp)
  | cons read rest ih =>
    obtain ⟨data, err⟩ := read
    cases err with
    | some e => intro p hp; exact Or.inl (by simpa [forwardClientToAgent] using hp)
    | none =>
      intro p hp
      by_cases hd : data.length > 0
      · simp only [forwardClientToAgent, hd, if_true, PacketConn.Send] at hp
        cases hs : pc.sendErr (sentPackets tr).length
            { ConnId := pc.ID, Code := ControlCode.DATA, Data := data } with
        | some e =>
          rw [hs] at hp
          simp only [sentPackets_append, sentPackets, List.mem_append, List.mem_singleton] at hp
          rcases hp with hp | hp
          · exact Or.inl hp
          · exact Or.inr ⟨by rw [hp], by rw [hp], by rw [hp]; exact hd, by rw [hp],
              (data, none), List.mem_cons_self _ _, by rw [hp]⟩
        | none =>
          rw [hs] at hp
          rcases ih _ p hp with hp | ⟨h1, h2, h3, h4, read, hr, h5⟩
          · simp only [sentPackets_append, sentPackets, List.mem_append,
              List.mem_singleton] at hp
            rcases hp with hp | hp
            · exact Or.inl hp
            · exact Or.inr ⟨by rw [hp], by rw [hp], by rw [hp]; exact hd, by rw [hp],
                (data, none), List.mem_cons_self _ _, by rw [hp]⟩
          · exact Or.inr ⟨h1, h2, h3, h4, read, List.mem_cons_of_mem _ hr, h5⟩
      · simp only [forwardClientToAgent, hd, if_false] at hp
        rcases ih _ p hp with hp | ⟨h1, h2, h3, h4, read, hr, h5⟩
        · exact Or.inl hp
        · exact Or.inr ⟨h1, h2, h3, h4, read, List.mem_cons_of_mem _ hr, h5⟩

/-- C14: when `Read` returns `abc` and then `de` together with `io.EOF`, every `Send`
succeeding, `forwardClientToAgent` sends the one packet `abc` and returns `io.EOF`: the bytes
`de` of the `Read` that returned the terminating error are not forwarded. -/
theorem forwardClientToAgent_drops_final_bytes :
    forwardClientToAgent examplePacketConn
        [(goStr "abc", none), (goStr "de", some GoError.EOF)] [] =
      (some GoError.EOF,
        [Event.Send { ConnId := 7, Code := ControlCode.DATA, Data := goStr "abc" }]) ∧
      concatBytes
        ((sentPackets (forwardClientToAgent examplePacketConn
          [(goStr "abc", none), (goStr "de", some GoError.EOF)] []).2).map (fun p => p.Data)) =
        goStr "abc" ∧
      bytesRead [(goStr "abc", none), (goStr "de", some GoError.EOF)] = goStr "abcde" := by
  decide

theorem concatBytes_payloads (ps : List Packet) :
    concatBytes (payloads ps) = concatBytes (ps.map (fun p => p.Data)) := by
  induction ps with
  | nil => rfl
  | cons p ps ih =>
    by_cases hd : p.Data.length > 0
    · have hpay : payloads (p :: ps) = p.Data :: payloads ps := by
        simp [payloads, List.filter_cons, hd]
      simp only [hpay, List.map_cons, concatBytes, ih]
    · have hnil : p.Data = [] := by
        cases hp : p.Data with
        | nil => rfl
        | cons x xs => simp [hp] at hd
      have hpay : payloads (p :: ps) = payloads ps := by
        simp [payloads, List.filter_cons, hd]
      simp only [hpay, List.map_cons, concatBytes, ih, hnil, List.nil_append]

/-- C15: for `DATA` packets `p1 .. pk` followed by the closure of the connection, every client
write succeeding, `forwardAgentToClient` writes the non-empty payloads, one per `Write`, in
arrival order, so the bytes written are `p1.Data ++ ... ++ pk.Data`, and it returns
`io.EOF`. -/
theorem forwardAgentToClient_round_trip (writeErr : Nat → Option GoError) (ps : List Packet)
    (hdata : ∀ p ∈ ps, p.Code = ControlCode.DATA)
    (hw : ∀ k, writeErr k = none) :
    (forwardAgentToClient writeErr ps []).1 = payloads ps ∧
      concatBytes (forwardAgentToClient writeErr ps []).1 =
        concatBytes (ps.map (fun p => p.Data)) ∧
      (forwardAgentToClient writeErr ps []).2 = some GoError.EOF := by
  have hpass := forwardAgentToClient_pass writeErr ps [] []
    (fun p hp => by rw [hdata p hp]; decide) (fun k _ => hw _)
  rw [List.append_nil] at hpass
  rw [hpass]
  simp [forwardAgentToClient, concatBytes_payloads]

theorem forwardAgentToClient_round_trip_witness :
    (forwardAgentToClient (fun _ => none) [dataPacket, emptyPacket, dataPacket] []).1 =
        payloads [dataPacket, emptyPacket, dataPacket] ∧
      concatBytes (forwardAgentToClient (fun _ => none) [dataPacket, emptyPacket, dataPacket] []).1 =
        concatBytes ([dataPacket, emptyPacket, dataPacket].map (fun p => p.Data)) ∧
      (forwardAgentToClient (fun _ => none) [dataPacket, emptyPacket, dataPacket] []).2 =
        some GoError.EOF :=
  forwardAgentToClient_round_trip (fun _ => none) [dataPacket, emptyPacket, dataPacket]
    (by decide) (fun _ => rfl)

/-! ## The result channel of `forwardTraffic` -/

theorem forwardClientToAgent_returns_error (pc : PacketConn)
    (reads : List (Bytes × Option GoError)) (tr : List Event) :
    ∃ err, (forwardClientToAgent pc reads tr).1 = some err := by
  induction reads generalizing tr with
  | nil => exact ⟨_, rfl⟩
  | cons read rest ih =>
    obtain ⟨data, err⟩ := read
    cases err with
    | some e => exact ⟨e, rfl⟩
    | none =>
      by_cases hd : data.length > 0
      · simp only [forwardClientToAgent, hd, if_true, PacketConn.Send]
        cases hs : pc.sendErr (sentPackets tr).length
            { ConnId := pc.ID, Code := ControlCode.DATA, Data := data } with
        | some e => exact ⟨e, rfl⟩
        | none => exact ih _
      · simp only [forwardClientToAgent, hd, if_false]
        exact ih _

theorem forwardAgentToClient_returns_error (writeErr : Nat → Option GoError)
    (packets : List Packet) (written : List Bytes) :
    ∃ err, (forwardAgentToClient writeErr packets written).2 = some err := by
  induction packets generalizing written with
  | nil => exact ⟨_, rfl⟩
  | cons packet rest ih =>
    rw [forwardAgentToClient]
    by_cases he : packet.Code = ControlCode.ERROR
    · simp [he]
    · by_cases hd : packet.Data.length > 0
      · simp only [he, if_false, hd, if_true]
        cases hw : writeErr written.length with
        | some e => exact ⟨e, rfl⟩
        | none => exact ih _
      · simp only [he, if_false, hd]
        exact ih _

/-- C16, as the claim states it, fails: when both forwarding functions panic, each goroutine
recovers and logs, and no value at all is delivered on `errChan`. -/
theorem forwardTraffic_panic_not_delivered :
    forwardTrafficGoroutines (TaskOutcome.panicked (goStr "index out of range"))
        (TaskOutcome.panicked (goStr "nil pointer dereference")) =
      [TaskEvent.logPanic
          (GoError.errorf (goStr "panic in client->agent forwarding: index out of range")),
        TaskEvent.logPanic
          (GoError.errorf (goStr "panic in agent->client forwarding: nil pointer dereference"))] ∧
      errChanValues
        (forwardTrafficGoroutines (TaskOutcome.panicked (goStr "index out of range"))
          (TaskOutcome.panicked (goStr "nil pointer dereference"))) = [] := by
  decide

theorem errChanValues_append (es fs : List TaskEvent) :
    errChanValues (es ++ fs) = errChanValues es ++ errChanValues fs := by
  induction es with
  | nil => rfl
  | cons e es ih => cases e <;> simp [errChanValues, ih]

theorem selectedErrors_append (es fs : List TaskEvent) :
    selectedErrors (es ++ fs) = selectedErrors es ++ selectedErrors fs := by
  induction es with
  | nil => rfl
  | cons e es ih => cases e <;> simp [selectedErrors, ih]

/-- The values that the end of a goroutine delivers and lets the `select` receive. -/
theorem goroutineEnds_values (direction : GoString) (task : TaskOutcome) (selected : Bool) :
    (∀ err, task = TaskOutcome.returned err →
        errChanValues (goroutineEnds direction task selected).2 = [err] ∧
          selectedErrors (goroutineEnds direction task selected).2 =
            (if selected then [] else [err]) ∧
          (goroutineEnds direction task selected).1 = true) ∧
      (∀ value, task = TaskOutcome.panicked value →
        errChanValues (goroutineEnds direction task selected).2 = [] ∧
          selectedErrors (goroutineEnds direction task selected).2 = [] ∧
          (goroutineEnds direction task selected).1 = selected) := by
  constructor
  · rintro err rfl
    cases selected <;>
      simp [goroutineEnds, forwardingGoroutine, errChanValues, selectedErrors]
  · rintro value rfl
    simp [goroutineEnds, forwardingGoroutine, errChanValues, selectedErrors]

/-- Only values that a forwarding function returned are delivered on `errChan`. -/
theorem forwardTrafficFrom_delivered (clientToAgent agentToClient : TaskOutcome)
    (s : ForwardTrafficState) (schedule : List ScheduleStep) :
    ∀ v ∈ errChanValues (forwardTrafficFrom clientToAgent agentToClient s schedule),
      clientToAgent = TaskOutcome.returned v ∨ agentToClient = TaskOutcome.returned v := by
  induction schedule generalizing s with
  | nil => intro v hv; simp [forwardTrafficFrom, errChanValues] at hv
  | cons step rest ih =>
    intro v hv
    rw [forwardTrafficFrom, errChanValues_append] at hv
    rcases List.mem_append.mp hv with hv | hv
    · cases step with
      | clientToAgentEnds =>
        by_cases he : s.clientToAgentEnded = true
        · simp [forwardTrafficStep, he, errChanValues] at hv
        · simp only [forwardTrafficStep, he, if_false, Bool.false_eq_true] at hv
          cases hc : clientToAgent with
          | returned err =>
            rw [((goroutineEnds_values _ clientToAgent s.selected).1 err hc).1] at hv
            rw [List.mem_singleton.mp hv]
            exact Or.inl rfl
          | panicked value =>
            rw [((goroutineEnds_values _ clientToAgent s.selected).2 value hc).1] at hv
            cases hv
      | agentToClientEnds =>
        by_cases he : s.agentToClientEnded = true
        · simp [forwardTrafficStep, he, errChanValues] at hv
        · simp only [forwardTrafficStep, he, if_false, Bool.false_eq_true] at hv
          cases hc : agentToClient with
          | returned err =>
            rw [((goroutineEnds_values _ agentToClient s.selected).1 err hc).1] at hv
            rw [List.mem_singleton.mp hv]
            exact Or.inr rfl
          | panicked value =>
            rw [((goroutineEnds_values _ agentToClient s.selected).2 value hc).1] at hv
            cases hv
      | ctxDone =>
        by_cases hsel : s.selected = true <;>
          simp [forwardTrafficStep, hsel, errChanValues] at hv
    · exact ih _ v hv

/-- The error that `forwardClientToAgent` returned is delivered once its goroutine ends. -/
theorem forwardTrafficFrom_clientToAgent (agentToClient : TaskOutcome) (err : Option GoError)
    (s : ForwardTrafficState) (schedule : List ScheduleStep)
    (hs : s.clientToAgentEnded = false) (hmem : ScheduleStep.clientToAgentEnds ∈ schedule) :
    err ∈ errChanValues
      (forwardTrafficFrom (TaskOutcome.returned err) agentToClient s schedule) := by
  induction schedule generalizing s with
  | nil => cases hmem
  | cons step rest ih =>
    rw [forwardTrafficFrom, errChanValues_append]
    cases step with
    | clientToAgentEnds =>
      refine List.mem_append_left _ ?_
      simp only [forwardTrafficStep, hs, if_false, Bool.false_eq_true]
      rw [((goroutineEnds_values _ (TaskOutcome.returned err) s.selected).1 err rfl).1]
      exact List.mem_singleton.mpr rfl
    | agentToClientEnds =>
      refine List.mem_append_right _ (ih _ ?_ ?_)
      · by_cases he : s.agentToClientEnded = true <;> simp [forwardTrafficStep, he, hs]
      · simpa using hmem
    | ctxDone =>
      refine List.mem_append_right _ (ih _ ?_ ?_)
      · by_cases hsel : s.selected = true <;> simp [forwardTrafficStep, hsel, hs]
      · simpa using hmem

/-- The error that `forwardAgentToClient` returned is delivered once its goroutine ends. -/
theorem forwardTrafficFrom_agentToClient (clientToAgent : TaskOutcome) (err : Option GoError)
    (s : ForwardTrafficState) (schedule : List ScheduleStep)
    (hs : s.agentToClientEnded = false) (hmem : ScheduleStep.agentToClientEnds ∈ schedule) :
    err ∈ errChanValues
      (forwardTrafficFrom clientToAgent (TaskOutcome.returned err) s schedule) := by
  induction schedule generalizing s with
  | nil => cases hmem
  | cons step rest ih =>
    rw [forwardTrafficFrom, errChanValues_append]
    cases step with
    | agentToClientEnds =>
      refine List.mem_append_left _ ?_
      simp only [forwardTrafficStep, hs, if_false, Bool.false_eq_true]
      rw [((goroutineEnds_values _ (TaskOutcome.returned err) s.selected).1 err rfl).1]
      exact List.mem_singleton.mpr rfl
    | clientToAgentEnds =>
      refine List.mem_append_right _ (ih _ ?_ ?_)
      · by_cases he : s.clientToAgentEnded = true <;> simp [forwardTrafficStep, he, hs]
      · simpa using hmem
    | ctxDone =>
      refine List.mem_append_right _ (ih _ ?_ ?_)
      · by_cases hsel : s.selected = true <;> simp [forwardTrafficStep, hsel, hs]
      · simpa using hmem

/-- The `select` receives at most one value; when `ctx.Done()` does not become ready, it is the
first value delivered on `errChan`. -/
theorem forwardTrafficFrom_selected (clientToAgent agentToClient : TaskOutcome)
    (s : ForwardTrafficState) (schedule : List ScheduleStep)
    (hctx : ScheduleStep.ctxDone ∉ schedule) :
    selectedErrors (forwardTrafficFrom clientToAgent agentToClient s schedule) =
      if s.selected then []
      else (errChanValues (forwardTrafficFrom clientToAgent agentToClient s schedule)).take 1 := by
  induction schedule generalizing s with
  | nil => cases s.selected <;> rfl
  | cons step rest ih =>
    have hrest : ScheduleStep.ctxDone ∉ rest := fun h => hctx (List.mem_cons_of_mem _ h)
    rw [forwardTrafficFrom, errChanValues_append, selectedErrors_append, ih _ hrest]
    cases step with
    | ctxDone => exact absurd (List.mem_cons_self _ _) hctx
    | clientToAgentEnds =>
      by_cases he : s.clientToAgentEnded = true
      · simp [forwardTrafficStep, he, errChanValues, selectedErrors]
      · simp only [forwardTrafficStep, he, if_false, Bool.false_eq_true]
        cases hc : clientToAgent with
        | returned err =>
          obtain ⟨h1, h2, h3⟩ := (goroutineEnds_values (goStr "client->agent")
            (TaskOutcome.returned err) s.selected).1 err rfl
          rw [h1, h2, h3]
          cases s.selected <;> simp
        | panicked value =>
          obtain ⟨h1, h2, h3⟩ := (goroutineEnds_values (goStr "client->agent")
            (TaskOutcome.panicked value) s.selected).2 value rfl
          rw [h1, h2, h3]
          simp
    | agentToClientEnds =>
      by_cases he : s.agentToClientEnded = true
      · simp [forwardTrafficStep, he, errChanValues, selectedErrors]
      · simp only [forwardTrafficStep, he, if_false, Bool.false_eq_true]
        cases hc : agentToClient with
        | returned err =>
          obtain ⟨h1, h2, h3⟩ := (goroutineEnds_values (goStr "agent->client")
            (TaskOutcome.returned err) s.selected).1 err rfl
          rw [h1, h2, h3]
          cases s.selected <;> simp
        | panicked value =>
          obtain ⟨h1, h2, h3⟩ := (goroutineEnds_values (goStr "agent->client")
            (TaskOutcome.panicked value) s.selected).2 value rfl
          rw [h1, h2, h3]
          simp

/-- Every value that the `select` receives has been delivered on `errChan`. -/
theorem forwardTrafficFrom_selected_delivered (clientToAgent agentToClient : TaskOutcome)
    (s : ForwardTrafficState) (schedule : List ScheduleStep) :
    ∀ v ∈ selectedErrors (forwardTrafficFrom clientToAgent agentToClient s schedule),
      v ∈ errChanValues (forwardTrafficFrom clientToAgent agentToClient s schedule) := by
  induction schedule generalizing s with
  | nil => intro v hv; simp [forwardTrafficFrom, selectedErrors] at hv
  | cons step rest ih =>
    intro v hv
    rw [forwardTrafficFrom, selectedErrors_append] at hv
    rw [forwardTrafficFrom, errChanValues_append]
    rcases List.mem_append.mp hv with hv | hv
    · refine List.mem_append_left _ ?_
      cases step with
      | clientToAgentEnds =>
        by_cases he : s.clientToAgentEnded = true
        · simp [forwardTrafficStep, he, selectedErrors] at hv
        · simp only [forwardTrafficStep, he, if_false, Bool.false_eq_true] at hv ⊢
          cases hc : clientToAgent with
          | returned err =>
            obtain ⟨h1, h2, _⟩ := (goroutineEnds_values (goStr "client->agent")
              (TaskOutcome.returned err) s.selected).1 err rfl
            rw [hc, h2] at hv
            rw [h1]
            cases hsel : s.selected <;> simp [hsel] at hv
            simp [hv]
          | panicked value =>
            obtain ⟨_, h2, _⟩ := (goroutineEnds_values (goStr "client->agent")
              (TaskOutcome.panicked value) s.selected).2 value rfl
            rw [hc, h2] at hv
            cases hv
      | agentToClientEnds =>
        by_cases he : s.agentToClientEnded = true
        · simp [forwardTrafficStep, he, selectedErrors] at hv
        · simp only [forwardTrafficStep, he, if_false, Bool.false_eq_true] at hv ⊢
          cases hc : agentToClient with
          | returned err =>
            obtain ⟨h1, h2, _⟩ := (goroutineEnds_values (goStr "agent->client")
              (TaskOutcome.returned err) s.selected).1 err rfl
            rw [hc, h2] at hv
            rw [h1]
            cases hsel : s.selected <;> simp [hsel] at hv
            simp [hv]
          | panicked value =>
            obtain ⟨_, h2, _⟩ := (goroutineEnds_values (goStr "agent->client")
              (TaskOutcome.panicked value) s.selected).2 value rfl
            rw [hc, h2] at hv
            cases hv
      | ctxDone =>
        by_cases hsel : s.selected = true <;>
          simp [forwardTrafficStep, hsel, selectedErrors] at hv
    · exact List.mem_append_right _ (ih _ v hv)

/-- C16, amended: in every run of `forwardTraffic`, whatever the order of the steps, the values
delivered on `errChan` are values that the forwarding functions returned; the error that
`forwardClientToAgent` returned, and the one that `forwardAgentToClient` returned, is delivered
on `errChan` as it is once its goroutine has ended; both functions return a non-nil error
whatever the reads, sends, packets and writes are; the `select` receives the first value
delivered unless `ctx.Done()` becomes ready; and a panic inside a forwarding function delivers
nothing on `errChan`, so that with two panics the `select` receives nothing. -/
theorem forwardTraffic_errChan (clientToAgent agentToClient : TaskOutcome)
    (schedule : List ScheduleStep) (pc : PacketConn) (reads : List (Bytes × Option GoError))
    (tr : List Event) (writeErr : Nat → Option GoError) (packets : List Packet)
    (written : List Bytes) (direction value₁ value₂ : GoString) :
    (∀ v ∈ errChanValues (forwardTraffic clientToAgent agentToClient schedule),
        clientToAgent = TaskOutcome.returned v ∨ agentToClient = TaskOutcome.returned v) ∧
      (ScheduleStep.clientToAgentEnds ∈ schedule →
        (forwardClientToAgent pc reads tr).1 ∈
          errChanValues
            (forwardTraffic (TaskOutcome.returned (forwardClientToAgent pc reads tr).1)
              agentToClient schedule)) ∧
      (ScheduleStep.agentToClientEnds ∈ schedule →
        (forwardAgentToClient writeErr packets written).2 ∈
          errChanValues
            (forwardTraffic clientToAgent
              (TaskOutcome.returned (forwardAgentToClient writeErr packets written).2)
              schedule)) ∧
      ((forwardClientToAgent pc reads tr).1 ≠ none ∧
        (forwardAgentToClient writeErr packets written).2 ≠ none) ∧
      (∀ v ∈ selectedErrors (forwardTraffic clientToAgent agentToClient schedule),
        v ∈ errChanValues (forwardTraffic clientToAgent agentToClient schedule)) ∧
      (ScheduleStep.ctxDone ∉ schedule →
        selectedErrors (forwardTraffic clientToAgent agentToClient schedule) =
          (errChanValues (forwardTraffic clientToAgent agentToClient schedule)).take 1) ∧
      errChanValues (forwardingGoroutine direction (TaskOutcome.panicked value₁)) = [] ∧
      (errChanValues
          (forwardTraffic (TaskOutcome.panicked value₁) (TaskOutcome.panicked value₂)
            schedule) = [] ∧
        selectedErrors
          (forwardTraffic (TaskOutcome.panicked value₁) (TaskOutcome.panicked value₂)
            schedule) = []) := by
  obtain ⟨e1, h1⟩ := forwardClientToAgent_returns_error pc reads tr
  obtain ⟨e2, h2⟩ := forwardAgentToClient_returns_error writeErr packets written
  have hpanic : errChanValues
      (forwardTraffic (TaskOutcome.panicked value₁) (TaskOutcome.panicked value₂)
        schedule) = [] := by
    apply List.eq_nil_iff_forall_not_mem.mpr
    intro v hv
    rcases forwardTrafficFrom_delivered _ _ _ schedule v hv with h | h <;> cases h
  refine ⟨forwardTrafficFrom_delivered _ _ _ schedule,
    forwardTrafficFrom_clientToAgent _ _ _ schedule rfl,
    forwardTrafficFrom_agentToClient _ _ _ schedule rfl,
    ⟨by rw [h1]; exact Option.some_ne_none _, by rw [h2]; exact Option.some_ne_none _⟩,
    forwardTrafficFrom_selected_delivered _ _ _ schedule,
    fun hctx => forwardTrafficFrom_selected _ _ _ schedule hctx, rfl, hpanic, ?_⟩
  apply List.eq_nil_iff_forall_not_mem.mpr
  intro v hv
  have hdel := forwardTrafficFrom_selected_delivered _ _ _ schedule v hv
  rw [forwardTraffic] at hpanic
  rw [hpanic] at hdel
  cases hdel

theorem forwardTraffic_errChan_witness :
    forwardTraffic (TaskOutcome.returned (some (GoError.errorf (goStr "send failed"))))
        (TaskOutcome.panicked (goStr "nil map"))
        [ScheduleStep.agentToClientEnds, ScheduleStep.clientToAgentEnds] =
      [TaskEvent.logPanic (GoError.errorf (goStr "panic in agent->client forwarding: nil map")),
        TaskEvent.errChanSend (some (GoError.errorf (goStr "send failed"))),
        TaskEvent.selectErrChan (some (GoError.errorf (goStr "send failed"))) true] ∧
      selectedErrors
          (forwardTraffic (TaskOutcome.returned (some (GoError.errorf (goStr "send failed"))))
            (TaskOutcome.panicked (goStr "nil map"))
            [ScheduleStep.agentToClientEnds, ScheduleStep.clientToAgentEnds]) =
        (errChanValues
          (forwardTraffic (TaskOutcome.returned (some (GoError.errorf (goStr "send failed"))))
            (TaskOutcome.panicked (goStr "nil map"))
            [ScheduleStep.agentToClientEnds, ScheduleStep.clientToAgentEnds])).take 1 :=
  ⟨by decide,
    (forwardTraffic_errChan (TaskOutcome.returned (some (GoError.errorf (goStr "send failed"))))
      (TaskOutcome.panicked (goStr "nil map"))
      [ScheduleStep.agentToClientEnds, ScheduleStep.clientToAgentEnds] examplePacketConn [] []
      (fun _ => none) [] [] [] [] []).2.2.2.2.2.1 (by decide)⟩

/-! ## The tunnel's connection identifiers -/

theorem TunnelState.run_nextId_le (t : TunnelState) (ops : List TunnelOp) :
    ∀ id ∈ (t.run ops).1, t.nextId ≤ id := by
  induction ops generalizing t with
  | nil => intro id hid; simp [TunnelState.run] at hid
  | cons op ops ih =>
    cases op with
    | NewPacketConn =>
      intro id hid
      simp only [TunnelState.run, List.mem_cons] at hid
      rcases hid with hid | hid
      · rw [hid]; exact Int.le_refl _
      · have := ih _ id hid
        simp only [TunnelState.NewPacketConn] at this
        omega
    | Close c =>
      intro id hid
      simp only [TunnelState.run] at hid
      have := ih _ id hid
      simpa [TunnelState.Close] using this

/-- C18: for every sequence of `NewPacketConn` calls on one tunnel, interleaved in any way with
`Close` calls, the identifiers returned are strictly increasing in call order and hence
pairwise distinct, so two requests on the same tunnel never get the same `ConnId`. -/
theorem TunnelState.run_ids_increasing (t : TunnelState) (ops : List TunnelOp) :
    List.Pairwise (fun a b => a < b) (t.run ops).1 ∧ (t.run ops).1.Nodup := by
  have hpair : ∀ (ops : List TunnelOp) (t : TunnelState),
      List.Pairwise (fun a b => a < b) (t.run ops).1 := by
    intro ops
    induction ops with
    | nil => intro t; simp [TunnelState.run]
    | cons op ops ih =>
      intro t
      cases op with
      | NewPacketConn =>
        simp only [TunnelState.run, List.pairwise_cons]
        refine ⟨?_, ih _⟩
        intro id hid
        have := TunnelState.run_nextId_le _ ops id hid
        simp only [TunnelState.NewPacketConn] at this ⊢
        omega
      | Close c =>
        simp only [TunnelState.run]
        exact ih _
  refine ⟨hpair ops t, ?_⟩
  exact (hpair ops t).imp (fun hab => Int.ne_of_lt hab)

end OCM.TunnelServer

namespace OCM.WorkStore

/-- C19: one call of `Stop` on a new watcher closes `done`, a second call closes `result`, and
a third call closes `result` again, which is a closed channel: the third call panics. -/
theorem workWatcher_third_Stop_panics :
    stopTimes 1 newWorkWatcher =
        Except.ok { resultClosed := false, doneClosed := true, stopped := true } ∧
      stopTimes 2 newWorkWatcher =
        Except.ok { resultClosed := true, doneClosed := true, stopped := true } ∧
      stopTimes 3 newWorkWatcher = Except.error Panic.closeOfClosedChannel :=
  ⟨rfl, rfl, rfl⟩

end OCM.WorkStore

namespace OCM.Klusterlet

open OCM.TunnelServer (GoString goStr GoError)

theorem FindStatusCondition_some {conditions : List Condition} {conditionType : GoString}
    {c : Condition} (h : FindStatusCondition conditions conditionType = some c) :
    c ∈ conditions ∧ c.Type_ = conditionType := by
  induction conditions with
  | nil => simp [FindStatusCondition] at h
  | cons d ds ih =>
    rw [FindStatusCondition] at h
    by_cases hd : d.Type_ = conditionType
    · rw [if_pos hd] at h
      cases h
      exact ⟨List.mem_cons_self _ _, hd⟩
    · rw [if_neg hd] at h
      exact ⟨List.mem_cons_of_mem _ (ih h).1, (ih h).2⟩

theorem FindStatusCondition_none {conditions : List Condition} {conditionType : GoString}
    (h : FindStatusCondition conditions conditionType = none) :
    ∀ c ∈ conditions, c.Type_ ≠ conditionType := by
  induction conditions with
  | nil => simp
  | cons d ds ih =>
    rw [FindStatusCondition] at h
    by_cases hd : d.Type_ = conditionType
    · rw [if_pos hd] at h
      cases h
    · rw [if_neg hd] at h
      intro c hc
      rcases List.mem_cons.mp hc with hc | hc
      · rw [hc]; exact hd
      · exact ih h c hc

/-- The replica count of the work agent differs from the config's own only by being 0, and is
the config's own when the klusterlet has a `HubConnectionDegraded` condition and none that is
`True` with a reason containing `HubKubeConfigSecretMissing`. -/
theorem workReplica_eq (conditions : List Condition) (replica : Int) :
    (FindStatusCondition conditions ConditionHubConnectionDegraded = none →
        workReplica conditions replica = 0) ∧
      ((∃ c ∈ conditions, c.Type_ = ConditionHubConnectionDegraded) →
        (∀ c ∈ conditions, c.Type_ = ConditionHubConnectionDegraded →
          ¬ (c.Status = ConditionTrue ∧
            Contains c.Reason ReasonHubKubeConfigSecretMissing = true)) →
        workReplica conditions replica = replica) := by
  constructor
  · intro hnone
    simp [workReplica, hnone]
  · rintro ⟨c, hc, hty⟩ hnot
    unfold workReplica
    cases hfind : FindStatusCondition conditions ConditionHubConnectionDegraded with
    | none => exact absurd hty (FindStatusCondition_none hfind c hc)
    | some d =>
      have hd := FindStatusCondition_some hfind
      simp only
      rw [if_neg (hnot d hd.1 hd.2)]

theorem workDeploymentConfigs_append (a b : List AgentEvent) :
    workDeploymentConfigs (a ++ b) = workDeploymentConfigs a ++ workDeploymentConfigs b := by
  induction a with
  | nil => rfl
  | cons e a ih =>
    cases e with
    | ApplyDeployment file config =>
      by_cases hf : file = workDeploymentFile
      · simp [workDeploymentConfigs, hf, ih]
      · simp [workDeploymentConfigs, hf, ih]
    | _ => simp [workDeploymentConfigs, ih]

theorem workFile_ne_registrationFile : registrationDeploymentFile ≠ workDeploymentFile := by
  unfold registrationDeploymentFile workDeploymentFile
  decide

/-- The calls of `hostedKubeconfigs` render no work deployment, and the conditions are unchanged
when it returns no error. -/
theorem hostedKubeconfigs_log (r : runtimeReconcile) (conditions : List Condition)
    (runtimeConfig : klusterletConfig) :
    workDeploymentConfigs (hostedKubeconfigs r conditions runtimeConfig).2.2 = [] ∧
      ((hostedKubeconfigs r conditions runtimeConfig).2.1 = none →
        (hostedKubeconfigs r conditions runtimeConfig).1 = conditions) := by
  unfold hostedKubeconfigs createManagedClusterKubeconfig
  cases r.IsHosted runtimeConfig.InstallMode with
  | false => simp [workDeploymentConfigs]
  | true =>
    cases r.SyncKubeConfigSecret runtimeConfig.RegistrationServiceAccount
        runtimeConfig.ExternalManagedKubeConfigRegistrationSecret with
    | some err => simp [workDeploymentConfigs]
    | none =>
      cases r.SyncKubeConfigSecret runtimeConfig.WorkServiceAccount
          runtimeConfig.ExternalManagedKubeConfigWorkSecret with
      | some err => simp [workDeploymentConfigs]
      | none => simp [workDeploymentConfigs]

/-- The call of `workClusterName` appends one event at most, which is no deployment, and the
conditions are unchanged when it returns a name. -/
theorem workClusterName_log (r : runtimeReconcile) (conditions : List Condition)
    (runtimeConfig : klusterletConfig) (tr : List AgentEvent) :
    ((workClusterName r conditions runtimeConfig tr).2.2 = tr ∨
        (workClusterName r conditions runtimeConfig tr).2.2 =
          tr ++ [AgentEvent.GetSecret runtimeConfig.AgentNamespace]) ∧
      (∀ clusterName, (workClusterName r conditions runtimeConfig tr).2.1 =
          Except.ok clusterName →
        (workClusterName r conditions runtimeConfig tr).1 = conditions) := by
  unfold workClusterName getClusterNameFromHubKubeConfigSecret
  by_cases hCN : runtimeConfig.ClusterName = []
  · rw [if_pos hCN]
    cases r.GetHubKubeConfigSecret runtimeConfig.AgentNamespace with
    | error err => simp
    | ok clusterName =>
      by_cases hlen : clusterName.length = 0
      · simp [hlen]
      · simp [hlen]
  · rw [if_neg hCN]
    simp

/-- Every config with which `installAgent` renders the work deployment is the incoming config
but for the cluster name and for the replica count, which is `workReplica` of the incoming
conditions; and a run that returns no error has rendered the work deployment. -/
theorem installAgent_workDeploymentConfigs (r : runtimeReconcile) (conditions : List Condition)
    (runtimeConfig : klusterletConfig) :
    (∀ config ∈ workDeploymentConfigs (installAgent r conditions runtimeConfig).2.2.2,
        config.Replica = workReplica conditions runtimeConfig.Replica) ∧
      ((installAgent r conditions runtimeConfig).2.2.1 = none →
        ∃ config, workDeploymentConfigs (installAgent r conditions runtimeConfig).2.2.2 =
          [config]) := by
  have hne : ¬ registrationDeploymentFile = workDeploymentFile := workFile_ne_registrationFile
  obtain ⟨hhlog, hhcond⟩ := hostedKubeconfigs_log r conditions runtimeConfig
  unfold installAgent
  rcases hh : hostedKubeconfigs r conditions runtimeConfig with ⟨conditions1, e0, tr⟩
  rw [hh] at hhlog hhcond
  simp only at hhlog hhcond
  cases e0 with
  | some err => simp [hhlog]
  | none =>
    have hc1 : conditions1 = conditions := hhcond rfl
    subst hc1
    simp only
    cases hA1 : r.ApplyDeployment registrationDeploymentFile runtimeConfig with
    | some err => simp [workDeploymentConfigs_append, workDeploymentConfigs, hhlog, hne]
    | none =>
      simp only
      obtain ⟨hnlog, hncond⟩ := workClusterName_log r conditions1 runtimeConfig
        (tr ++ [AgentEvent.ApplyDeployment registrationDeploymentFile runtimeConfig])
      rcases hn : workClusterName r conditions1 runtimeConfig
        (tr ++ [AgentEvent.ApplyDeployment registrationDeploymentFile runtimeConfig])
        with ⟨conditions2, name, tr2⟩
      rw [hn] at hnlog hncond
      simp only at hnlog hncond
      have htr2 : workDeploymentConfigs tr2 = [] := by
        rcases hnlog with hnlog | hnlog <;> rw [hnlog] <;>
          simp [workDeploymentConfigs_append, workDeploymentConfigs, hhlog, hne]
      cases name with
      | error err => simp [htr2]
      | ok clusterName =>
        have hc2 : conditions2 = conditions1 := hncond clusterName rfl
        subst hc2
        simp only
        split
        · simp [workDeploymentConfigs_append, workDeploymentConfigs, htr2]
        · split
          · split <;> simp [workDeploymentConfigs_append, workDeploymentConfigs, htr2]
          · simp [workDeploymentConfigs_append, workDeploymentConfigs, htr2]

/-- The run of `installAgent` on the healthy standalone cluster with the example config: the
two deployments are applied, the work deployment with the config whose replica count is
`workReplica` of the conditions, and the singleton agent is deleted. -/
theorem installAgent_healthy (conditions : List Condition) :
    (installAgent healthyCluster conditions exampleConfig).2.2.2 =
      [AgentEvent.ApplyDeployment registrationDeploymentFile exampleConfig,
        AgentEvent.ApplyDeployment workDeploymentFile
          { exampleConfig with Replica := workReplica conditions exampleConfig.Replica },
        AgentEvent.DeleteDeployment exampleConfig.AgentNamespace
          (exampleConfig.KlusterletName ++ goStr "-agent")] := by
  have hname : ¬ exampleConfig.ClusterName = [] := by decide
  simp [installAgent, hostedKubeconfigs, workClusterName, healthyCluster, hname]

/-- C20, as the claim states it, fails: a klusterlet without any condition contains no
`HubConnectionDegraded` condition that is `True` with a reason containing
`HubKubeConfigSecretMissing`, yet for the incoming replica count 1 the work deployment is
rendered with the replica count 0. -/
theorem installAgent_scales_down_without_condition :
    (workDeploymentConfigs (installAgent healthyCluster [] exampleConfig).2.2.2).map
        (fun config => config.Replica) = [0] ∧
      exampleConfig.Replica = 1 ∧
      ¬ ∃ c ∈ ([] : List Condition), c.Type_ = ConditionHubConnectionDegraded ∧
        c.Status = ConditionTrue ∧
        Contains c.Reason ReasonHubKubeConfigSecretMissing = true := by
  have hne : ¬ registrationDeploymentFile = workDeploymentFile := workFile_ne_registrationFile
  rw [installAgent_healthy]
  refine ⟨?_, rfl, by simp⟩
  simp [workDeploymentConfigs, hne, workReplica, FindStatusCondition]

/-- The replica count with which `installAgent` renders the work deployment: it is 0 when the
klusterlet has no `HubConnectionDegraded` condition, 0 as well when the condition found is
`True` with a reason containing `HubKubeConfigSecretMissing`, and the replica count of the
incoming runtime config when the klusterlet has a `HubConnectionDegraded` condition and none
that is `True` with a reason containing `HubKubeConfigSecretMissing`. -/
theorem installAgent_work_replica (r : runtimeReconcile) (conditions : List Condition)
    (runtimeConfig config : klusterletConfig)
    (hconfig : config ∈ workDeploymentConfigs (installAgent r conditions runtimeConfig).2.2.2) :
    (FindStatusCondition conditions ConditionHubConnectionDegraded = none →
        config.Replica = 0) ∧
      ((∃ c ∈ conditions, c.Type_ = ConditionHubConnectionDegraded) →
        (∀ c ∈ conditions, c.Type_ = ConditionHubConnectionDegraded →
          ¬ (c.Status = ConditionTrue ∧
            Contains c.Reason ReasonHubKubeConfigSecretMissing = true)) →
        config.Replica = runtimeConfig.Replica) ∧
      (∀ d, FindStatusCondition conditions ConditionHubConnectionDegraded = some d →
        d.Status = ConditionTrue →
        Contains d.Reason ReasonHubKubeConfigSecretMissing = true →
        config.Replica = 0) := by
  have hrep := (installAgent_workDeploymentConfigs r conditions runtimeConfig).1 config hconfig
  have hwork := workReplica_eq conditions runtimeConfig.Replica
  rw [hrep]
  refine ⟨hwork.1, hwork.2, ?_⟩
  intro d hfind hstatus hreason
  simp [workReplica, hfind, hstatus, hreason]

theorem installAgent_work_replica_witness :
    exampleConfig ∈
        workDeploymentConfigs
          (installAgent healthyCluster [connectedCondition] exampleConfig).2.2.2 ∧
      exampleConfig.Replica = 1 :=
  have hmem : exampleConfig ∈
      workDeploymentConfigs
        (installAgent healthyCluster [connectedCondition] exampleConfig).2.2.2 := by
    have hne : ¬ registrationDeploymentFile = workDeploymentFile := workFile_ne_registrationFile
    have hrep : workReplica [connectedCondition] exampleConfig.Replica = exampleConfig.Replica := by
      decide
    rw [installAgent_healthy, hrep]
    simp [workDeploymentConfigs, hne]
  ⟨hmem,
    ((installAgent_work_replica healthyCluster [connectedCondition] exampleConfig exampleConfig
      hmem).2.1 ⟨connectedCondition, List.mem_cons_self _ _, rfl⟩ (by decide)).trans rfl⟩

end OCM.Klusterlet

namespace OCM.TunnelServer

/-! ## The bytes of the initial request -/

/-- C28, as the claim states it, fails: for a request whose header has a `Host` entry with an
empty value, the packet still carries the line `Host: hub.example`, followed by the line of the
entry itself; with the host line left out, as the claim has it for a header that has a `Host`
entry, the bytes would differ. -/
theorem sendInitialHTTPRequest_host_entry_empty :
    sentPackets (sendInitialHTTPRequest examplePacketConn emptyHostRequest []).2 =
        [{ ConnId := 7, Code := ControlCode.DATA,
            Data := goStr "GET /x HTTP/1.1\r\nHost: hub.example\r\nHost: \r\n\r\n" }] ∧
      (emptyHostRequest.Header.lookup (goStr "Host")).isSome = true ∧
      goStr "GET /x HTTP/1.1\r\nHost: hub.example\r\nHost: \r\n\r\n" ≠
        requestLine emptyHostRequest ++ hostLineIfNoEntry emptyHostRequest ++
          headerLines emptyHostRequest.Header ++ goStr "\r\n" ++ requestBody emptyHostRequest := by
  decide

/-- C28, amended: when the body is read successfully (or is nil), `sendInitialHTTPRequest` makes
one `Send`, of a `DATA` packet with the connection's identifier whose `Data` is the request
line, then the line `Host: <r.Host>` exactly when `r.Header.Get("Host")` is empty (no `Host`
entry, or one whose first value is empty), then one line `Name: value` for every value of every
header entry, then the empty line, then the body byte for byte, and it returns the result of
that `Send`; when reading the body fails, it returns an error and sends no packet. -/
theorem sendInitialHTTPRequest_data (pc : PacketConn) (r : Request) (tr : List Event) :
    match r.Body with
    | some (_, some err) =>
      sendInitialHTTPRequest pc r tr =
        (some (GoError.wrapf (goStr "failed to read request body: ") err), tr)
    | _ =>
      ∃ packet : Packet,
        sendInitialHTTPRequest pc r tr =
            (pc.sendErr (sentPackets tr).length packet, tr ++ [Event.Send packet]) ∧
          packet.ConnId = pc.ID ∧ packet.Code = ControlCode.DATA ∧
          packet.Data =
            r.Method ++ goStr " " ++ r.RequestURI ++ goStr " " ++ httpVersion r ++ goStr "\r\n" ++
              (if r.Header.Get (goStr "Host") = [] then goStr "Host: " ++ r.Host ++ goStr "\r\n"
                else []) ++
              headerLines r.Header ++ goStr "\r\n" ++ requestBody r := by
  cases hb : r.Body with
  | none =>
    simp only
    refine ⟨{ ConnId := pc.ID, Code := ControlCode.DATA, Data := serializedRequest r }, ?_,
      rfl, rfl, ?_⟩
    · rw [sendInitialHTTPRequest_readable pc r tr (by intro b e h; rw [hb] at h; cases h)]
      rfl
    · simp [serializedRequest, requestLine, hostLine, List.append_assoc]
  | some body =>
    obtain ⟨bodyBytes, readErr⟩ := body
    cases readErr with
    | some e =>
      simp only
      unfold sendInitialHTTPRequest
      simp [hb]
    | none =>
      simp only
      refine ⟨{ ConnId := pc.ID, Code := ControlCode.DATA, Data := serializedRequest r }, ?_,
        rfl, rfl, ?_⟩
      · rw [sendInitialHTTPRequest_readable pc r tr (by intro b e h; rw [hb] at h; cases h)]
        rfl
      · simp [serializedRequest, requestLine, hostLine, List.append_assoc]

end OCM.TunnelServer

namespace OCM.AWSIRSA

open OCM.TunnelServer (GoString goStr)

/-- C21, as the claim states it, fails: the object `cluster1-abc` carries no addon label and its
name starts with the cluster name `cluster1`, yet the filter returns false. -/
theorem EventFilterFunc_rejects_longer_name :
    EventFilterFunc (goStr "cluster1") (some suffixedObject) = false ∧
      suffixedObject.Labels.lookup AddonLabelKey = none ∧
      OCM.Klusterlet.startsWith suffixedObject.Name (goStr "cluster1") = true := by
  decide

/-- C21, amended: the filter returns true for an object exactly when the object carries no addon
label key and its name is equal to the configured cluster name; an object that has the addon
label is rejected whatever its name. -/
theorem EventFilterFunc_iff (ClusterName : GoString) (obj : Option ObjectMeta) :
    (EventFilterFunc ClusterName obj = true ↔
        ∃ accessor, obj = some accessor ∧ accessor.Labels.lookup AddonLabelKey = none ∧
          accessor.Name = ClusterName) ∧
      (∀ accessor value, accessor.Labels.lookup AddonLabelKey = some value →
        EventFilterFunc ClusterName (some accessor) = false) := by
  constructor
  · cases obj with
    | none => simp [EventFilterFunc]
    | some accessor =>
      cases hl : accessor.Labels.lookup AddonLabelKey with
      | none =>
        simp only [EventFilterFunc, hl]
        constructor
        · intro h
          exact ⟨accessor, rfl, hl, of_decide_eq_true h⟩
        · rintro ⟨a, ha, _, hn⟩
          cases ha
          exact decide_eq_true hn
      | some v =>
        simp only [EventFilterFunc, hl]
        constructor
        · intro h
          cases h
        · rintro ⟨a, ha, hl', _⟩
          cases ha
          rw [hl] at hl'
          cases hl'
  · intro accessor value hl
    simp [EventFilterFunc, hl]

end OCM.AWSIRSA

namespace OCM.ClusterManager

open OCM.TunnelServer (GoString goStr)

/-- The files of `getHubResources`, by the condition under which each group is appended. -/
theorem mem_getHubResources {μ : Type} (IsHosted : μ → Bool) (mode : μ) (config : HubConfig)
    (f : GoString) :
    f ∈ getHubResources IsHosted mode config ↔
      (f = namespaceResource ∨ f ∈ hubRbacResourceFiles) ∨
        (config.AddOnManagerEnabled = true ∧ f ∈ hubAddOnManagerRbacResourceFiles) ∨
        (config.MWReplicaSetEnabled = true ∧ f ∈ mwReplicaSetResourceFiles) ∨
        (IsHosted mode = true ∧
          (f ∈ hubHostedWebhookServiceFiles ∨
            (config.RegistrationWebhook.IsIPFormat = true ∧
              f = hubHostedWebhookEndpointRegistration) ∨
            (config.WorkWebhook.IsIPFormat = true ∧ f = hubHostedWebhookEndpointWork))) ∨
        (IsHosted mode = false ∧ f ∈ hubDefaultWebhookServiceFiles) := by
  unfold getHubResources
  generalize namespaceResource = file0
  generalize hubRbacResourceFiles = files1
  generalize hubAddOnManagerRbacResourceFiles = files2
  generalize mwReplicaSetResourceFiles = files3
  generalize hubHostedWebhookServiceFiles = files4
  generalize hubDefaultWebhookServiceFiles = files5
  generalize hubHostedWebhookEndpointRegistration = file6
  generalize hubHostedWebhookEndpointWork = file7
  cases config.AddOnManagerEnabled <;> cases config.MWReplicaSetEnabled <;>
    cases IsHosted mode <;> cases config.RegistrationWebhook.IsIPFormat <;>
    cases config.WorkWebhook.IsIPFormat <;>
    simp only [List.mem_append, List.mem_singleton, if_true, if_false, Bool.false_eq_true,
      true_and, false_and, or_false, false_or, and_true] <;>
    tauto

theorem hosted_service_files_apart :
    ∀ f ∈ hubHostedWebhookServiceFiles,
      f ≠ namespaceResource ∧ f ∉ hubRbacResourceFiles ∧
        f ∉ hubAddOnManagerRbacResourceFiles ∧ f ∉ mwReplicaSetResourceFiles ∧
        f ∉ hubDefaultWebhookServiceFiles := by
  decide

theorem default_service_files_apart :
    ∀ f ∈ hubDefaultWebhookServiceFiles,
      f ≠ namespaceResource ∧ f ∉ hubRbacResourceFiles ∧
        f ∉ hubAddOnManagerRbacResourceFiles ∧ f ∉ mwReplicaSetResourceFiles ∧
        f ∉ hubHostedWebhookServiceFiles ∧ f ≠ hubHostedWebhookEndpointRegistration ∧
        f ≠ hubHostedWebhookEndpointWork := by
  decide

theorem endpoint_files_apart :
    ∀ f ∈ [hubHostedWebhookEndpointRegistration, hubHostedWebhookEndpointWork],
      f ≠ namespaceResource ∧ f ∉ hubRbacResourceFiles ∧
        f ∉ hubAddOnManagerRbacResourceFiles ∧ f ∉ mwReplicaSetResourceFiles ∧
        f ∉ hubDefaultWebhookServiceFiles ∧ f ∉ hubHostedWebhookServiceFiles := by
  decide

theorem endpoint_files_ne :
    hubHostedWebhookEndpointRegistration ≠ hubHostedWebhookEndpointWork := by
  decide

/-- C25: in the list that `getHubResources` returns, each hosted webhook service file appears
exactly when the install mode is hosted, each default webhook service file exactly when it is
not, the hosted registration webhook endpoint file exactly when the mode is hosted and the
registration webhook's address `IsIPFormat`, and the hosted work webhook endpoint file exactly
when the mode is hosted and the work webhook's address `IsIPFormat`. -/
theorem getHubResources_hosted_files {μ : Type} (IsHosted : μ → Bool) (mode : μ)
    (config : HubConfig) :
    (∀ f ∈ hubHostedWebhookServiceFiles,
        f ∈ getHubResources IsHosted mode config ↔ IsHosted mode = true) ∧
      (∀ f ∈ hubDefaultWebhookServiceFiles,
        f ∈ getHubResources IsHosted mode config ↔ IsHosted mode = false) ∧
      (hubHostedWebhookEndpointRegistration ∈ getHubResources IsHosted mode config ↔
        IsHosted mode = true ∧ config.RegistrationWebhook.IsIPFormat = true) ∧
      (hubHostedWebhookEndpointWork ∈ getHubResources IsHosted mode config ↔
        IsHosted mode = true ∧ config.WorkWebhook.IsIPFormat = true) := by
  have hne := endpoint_files_ne
  refine ⟨?_, ?_, ?_, ?_⟩
  · intro f hf
    obtain ⟨h0, h1, h2, h3, h5⟩ := hosted_service_files_apart f hf
    rw [mem_getHubResources]
    constructor
    · rintro ((h | h) | ⟨_, h⟩ | ⟨_, h⟩ | ⟨h, _⟩ | ⟨_, h⟩)
      · exact absurd h h0
      · exact absurd h h1
      · exact absurd h h2
      · exact absurd h h3
      · exact h
      · exact absurd h h5
    · intro h
      exact Or.inr (Or.inr (Or.inr (Or.inl ⟨h, Or.inl hf⟩)))
  · intro f hf
    obtain ⟨h0, h1, h2, h3, h4, h6, h7⟩ := default_service_files_apart f hf
    rw [mem_getHubResources]
    constructor
    · rintro ((h | h) | ⟨_, h⟩ | ⟨_, h⟩ | ⟨_, h | ⟨_, h⟩ | ⟨_, h⟩⟩ | ⟨h, _⟩)
      · exact absurd h h0
      · exact absurd h h1
      · exact absurd h h2
      · exact absurd h h3
      · exact absurd h h4
      · exact absurd h h6
      · exact absurd h h7
      · exact h
    · intro h
      exact Or.inr (Or.inr (Or.inr (Or.inr ⟨h, hf⟩)))
  · obtain ⟨h0, h1, h2, h3, h5, h4⟩ :=
      endpoint_files_apart hubHostedWebhookEndpointRegistration (by simp)
    rw [mem_getHubResources]
    constructor
    · rintro ((h | h) | ⟨_, h⟩ | ⟨_, h⟩ | ⟨hh, h | ⟨hi, _⟩ | ⟨_, h⟩⟩ | ⟨_, h⟩)
      · exact absurd h h0
      · exact absurd h h1
      · exact absurd h h2
      · exact absurd h h3
      · exact absurd h h4
      · exact ⟨hh, hi⟩
      · exact absurd h hne
      · exact absurd h h5
    · rintro ⟨hh, hi⟩
      exact Or.inr (Or.inr (Or.inr (Or.inl ⟨hh, Or.inr (Or.inl ⟨hi, rfl⟩)⟩)))
  · obtain ⟨h0, h1, h2, h3, h5, h4⟩ :=
      endpoint_files_apart hubHostedWebhookEndpointWork (by simp)
    rw [mem_getHubResources]
    constructor
    · rintro ((h | h) | ⟨_, h⟩ | ⟨_, h⟩ | ⟨hh, h | ⟨_, h⟩ | ⟨hi, _⟩⟩ | ⟨_, h⟩)
      · exact absurd h h0
      · exact absurd h h1
      · exact absurd h h2
      · exact absurd h h3
      · exact absurd h h4
      · exact absurd h.symm hne
      · exact ⟨hh, hi⟩
      · exact absurd h h5
    · rintro ⟨hh, hi⟩
      exact Or.inr (Or.inr (Or.inr (Or.inl ⟨hh, Or.inr (Or.inr ⟨hi, rfl⟩)⟩)))

end OCM.ClusterManager

namespace OCM.WorkStore

open OCM.TunnelServer (GoString goStr GoError)
open OCM.Klusterlet (Condition ConditionTrue ConditionFalse FindStatusCondition)

/-- C26: when the work is found in the local cache, is not marked `ManifestsDeleted`, both
resource versions parse as integers, the cached one is not zero and the received one is greater,
`handleWork` returns nil and calls neither `store.Update` nor `store.Delete`. -/
theorem handleWork_ignores_newer_version (b : workProcessor) (work lastWork : ManifestWork)
    (lastResourceVersion resourceVersion : Int)
    (hfound : b.getWork work.UID = some lastWork)
    (hkept : IsStatusConditionTrue work.Status.Conditions ManifestsDeleted = false)
    (hlast : Atoi lastWork.ResourceVersion = Except.ok lastResourceVersion)
    (hcur : Atoi work.ResourceVersion = Except.ok resourceVersion)
    (hnonzero : lastResourceVersion ≠ 0)
    (hgreater : resourceVersion > lastResourceVersion) :
    b.handleWork work = (none, []) := by
  unfold workProcessor.handleWork
  simp only [hfound, hkept, hlast, hcur]
  simp [hnonzero, hgreater]

theorem handleWork_ignores_newer_version_witness :
    exampleProcessor.handleWork (reportedWork (goStr "3")) = (none, []) :=
  handleWork_ignores_newer_version exampleProcessor (reportedWork (goStr "3")) cachedWork 2 3
    (by decide) (by decide) rfl rfl (by decide) (by decide)

theorem hasFinalizer_iff (fs : List GoString) :
    hasFinalizer fs = true ↔ ManifestWorkFinalizer ∈ fs := by
  induction fs with
  | nil => simp [hasFinalizer]
  | cons f fs ih =>
    by_cases hf : f = ManifestWorkFinalizer
    · simp [hasFinalizer, hf]
    · have hf' : ¬ ManifestWorkFinalizer = f := fun h => hf h.symm
      simp [hasFinalizer, hf, hf', ih]

theorem ensureFinalizers_of_mem {fs : List GoString} (h : ManifestWorkFinalizer ∈ fs) :
    ensureFinalizers fs = fs := by
  have hhas : hasFinalizer fs = true := (hasFinalizer_iff fs).mpr h
  simp [ensureFinalizers, hhas]

theorem ensureFinalizers_of_not_mem {fs : List GoString} (h : ManifestWorkFinalizer ∉ fs) :
    ensureFinalizers fs = fs ++ [ManifestWorkFinalizer] := by
  have hhas : hasFinalizer fs = false := by
    cases hb : hasFinalizer fs with
    | false => rfl
    | true => exact absurd ((hasFinalizer_iff fs).mp hb) h
  simp [ensureFinalizers, hhas]

theorem mem_ensureFinalizers (fs : List GoString) :
    ManifestWorkFinalizer ∈ ensureFinalizers fs := by
  by_cases h : ManifestWorkFinalizer ∈ fs
  · rw [ensureFinalizers_of_mem h]; exact h
  · rw [ensureFinalizers_of_not_mem h]; simp

/-- Every work that `handleWork` hands to `store.Update` has its finalizers from
`ensureFinalizers`. -/
theorem handleWork_update_finalizers (b : workProcessor) (work updated : ManifestWork)
    (h : StoreEvent.Update updated ∈ (b.handleWork work).2) :
    ∃ fs, updated.Finalizers = ensureFinalizers fs := by
  unfold workProcessor.handleWork at h
  cases hg : b.getWork work.UID with
  | none =>
    rw [hg] at h
    by_cases hd : IsStatusConditionTrue work.Status.Conditions ManifestsDeleted = true
    · simp [hd] at h
    · simp [hd] at h
  | some lastWork =>
    rw [hg] at h
    by_cases hd : IsStatusConditionTrue work.Status.Conditions ManifestsDeleted = true
    · simp [hd] at h
    · simp only [hd] at h
      cases hl : Atoi lastWork.ResourceVersion with
      | error e => simp [hl] at h
      | ok lastResourceVersion =>
        cases hc : Atoi work.ResourceVersion with
        | error e => simp [hl, hc] at h
        | ok resourceVersion =>
          simp only [hl, hc] at h
          by_cases hv : lastResourceVersion ≠ 0 ∧ resourceVersion > lastResourceVersion
          · simp [hv] at h
          · simp only [hv, if_false] at h
            rcases hcmp : b.CompareSnowflakeSequenceIDs
                (mapGet lastWork.Annotations CloudEventsSequenceIDAnnotationKey)
                (mapGet work.Annotations CloudEventsSequenceIDAnnotationKey)
              with ⟨greater, cmpErr⟩
            rw [hcmp] at h
            cases cmpErr with
            | some e => simp at h
            | none =>
              cases greater with
              | false => simp at h
              | true =>
                by_cases hs : lastWork.Status = work.Status
                · simp [hs] at h
                · simp only [hs, if_false, Bool.not_true, Bool.false_eq_true,
                    List.mem_singleton, StoreEvent.Update.injEq] at h
                  exact ⟨lastWork.Finalizers, by rw [h]⟩

/-- C27: every work that `handleWork` hands to `store.Update` carries `ManifestWorkFinalizer`;
`ensureFinalizers fs` always contains `ManifestWorkFinalizer`, is `fs` itself when `fs` has the
finalizer and `fs` with the finalizer appended when it has not, so that `fs` is kept as its
beginning, and applying it twice is the same as applying it once. -/
theorem handleWork_update_has_finalizer (b : workProcessor) (work updated : ManifestWork)
    (fs : List GoString)
    (h : StoreEvent.Update updated ∈ (b.handleWork work).2) :
    ManifestWorkFinalizer ∈ updated.Finalizers ∧
      ManifestWorkFinalizer ∈ ensureFinalizers fs ∧
      (ManifestWorkFinalizer ∈ fs → ensureFinalizers fs = fs) ∧
      (ManifestWorkFinalizer ∉ fs → ensureFinalizers fs = fs ++ [ManifestWorkFinalizer]) ∧
      fs <+: ensureFinalizers fs ∧
      ensureFinalizers (ensureFinalizers fs) = ensureFinalizers fs := by
  obtain ⟨fs0, hfs0⟩ := handleWork_update_finalizers b work updated h
  refine ⟨by rw [hfs0]; exact mem_ensureFinalizers fs0, mem_ensureFinalizers fs,
    ensureFinalizers_of_mem, ensureFinalizers_of_not_mem, ?_,
    ensureFinalizers_of_mem (mem_ensureFinalizers fs)⟩
  by_cases hm : ManifestWorkFinalizer ∈ fs
  · rw [ensureFinalizers_of_mem hm]
  · rw [ensureFinalizers_of_not_mem hm]
    exact ⟨[ManifestWorkFinalizer], rfl⟩

theorem handleWork_update_has_finalizer_witness :
    ManifestWorkFinalizer ∈
        ({ cachedWork with
            Finalizers := [ManifestWorkFinalizer]
            Annotations := [(CloudEventsSequenceIDAnnotationKey, goStr "1834773391719010304")]
            Status := (reportedWork (goStr "2")).Status } : ManifestWork).Finalizers ∧
      ManifestWorkFinalizer ∈ ensureFinalizers [goStr "other"] ∧
      (ManifestWorkFinalizer ∈ [goStr "other"] →
        ensureFinalizers [goStr "other"] = [goStr "other"]) ∧
      (ManifestWorkFinalizer ∉ [goStr "other"] →
        ensureFinalizers [goStr "other"] = [goStr "other"] ++ [ManifestWorkFinalizer]) ∧
      [goStr "other"] <+: ensureFinalizers [goStr "other"] ∧
      ensureFinalizers (ensureFinalizers [goStr "other"]) = ensureFinalizers [goStr "other"] :=
  handleWork_update_has_finalizer exampleProcessor (reportedWork (goStr "2")) _ [goStr "other"]
    (by decide)

end OCM.WorkStore

namespace OCM.HubRegistration

open OCM.TunnelServer (Bytes GoString goStr GoError)
open OCM.Klusterlet (Condition ConditionTrue ConditionFalse FindStatusCondition
  SetStatusCondition)
open OCM.WorkStore (IsStatusConditionTrue mapSet)

theorem removeFinalizerFromWorkRoleBinding_log (c : managedClusterController)
    (clusterName : GoString) (tr : List Event) :
    ∃ added, (removeFinalizerFromWorkRoleBinding c clusterName tr).2 = tr ++ added ∧
      ∀ e ∈ added, e.isPatch = false := by
  unfold removeFinalizerFromWorkRoleBinding
  cases c.GetRoleBinding clusterName (workRoleBindingName clusterName) with
  | none =>
    exact ⟨[Event.GetRoleBinding clusterName (workRoleBindingName clusterName),
      Event.RoleBindingRemoveFinalizer clusterName (workRoleBindingName clusterName)],
      by simp, by simp [Event.isPatch]⟩
  | some err =>
    by_cases hnf : c.IsNotFound err = true
    · exact ⟨[Event.GetRoleBinding clusterName (workRoleBindingName clusterName)],
        by simp [hnf], by simp [Event.isPatch]⟩
    · exact ⟨[Event.GetRoleBinding clusterName (workRoleBindingName clusterName)],
        by simp [hnf], by simp [Event.isPatch]⟩

/-- The calls that `removeClusterRbac` adds to the log hold no `Patch` of the cluster. -/
theorem removeClusterRbac_log (c : managedClusterController) (clusterName : GoString)
    (tr : List Event) :
    ∃ added, (removeClusterRbac c clusterName tr).2 = tr ++ added ∧
      ∀ e ∈ added, e.isPatch = false := by
  unfold removeClusterRbac
  simp only
  split
  · exact ⟨[_, _], rfl, by simp [Event.isPatch]⟩
  · split
    · exact ⟨[_, _], rfl, by simp [Event.isPatch]⟩
    · obtain ⟨added, hadd, hno⟩ := removeFinalizerFromWorkRoleBinding_log c clusterName
        (tr ++ [Event.DeleteAll clusterName, Event.ListManifestWorks clusterName])
      refine ⟨[Event.DeleteAll clusterName, Event.ListManifestWorks clusterName] ++ added,
        by rw [hadd, List.append_assoc], ?_⟩
      intro e he
      rcases List.mem_append.mp he with he | he
      · simp at he
        rcases he with he | he <;> simp [he, Event.isPatch]
      · exact hno e he

/-- C23, as the claim states it, fails: a listing that yields the work `work1` together with
an error that is not a not-found error makes `removeClusterRbac` return the aggregate of the
errors, which is not the requeue error; no call of `removeFinalizerFromWorkRoleBinding` is
made. -/
theorem removeClusterRbac_list_error_aggregate :
    ((unavailableListController [goStr "work1"]).ListManifestWorks (goStr "cluster1")).1 =
        [goStr "work1"] ∧
      removeClusterRbac (unavailableListController [goStr "work1"]) (goStr "cluster1") [] =
        (some (GoError.errorf (goStr "the server is currently unable to handle the request")),
          [Event.DeleteAll (goStr "cluster1"), Event.ListManifestWorks (goStr "cluster1")]) ∧
      (removeClusterRbac (unavailableListController [goStr "work1"]) (goStr "cluster1") []).1 ≠
        some requeueError := by
  decide

/-- C23, amended: whenever listing the works of the cluster namespace yields at least one work,
`removeClusterRbac` adds to the log the calls `DeleteAll` and `List` only, so that no call of
`removeFinalizerFromWorkRoleBinding` is made; it returns the requeue error when the listing
returned no error or a not-found error, and the aggregate of the deletion errors and the listing
error, which is not the requeue error, when the listing returned any other error. -/
theorem removeClusterRbac_requeues (c : managedClusterController) (clusterName : GoString)
    (tr : List Event)
    (hworks : (c.ListManifestWorks clusterName).1 ≠ []) :
    (removeClusterRbac c clusterName tr).2 =
        tr ++ [Event.DeleteAll clusterName, Event.ListManifestWorks clusterName] ∧
      (∀ e ∈ [Event.DeleteAll clusterName, Event.ListManifestWorks clusterName],
        e.isRoleBindingCall = false) ∧
      (((c.ListManifestWorks clusterName).2 = none ∨
          ∃ err, (c.ListManifestWorks clusterName).2 = some err ∧ c.IsNotFound err = true) →
        (removeClusterRbac c clusterName tr).1 = some requeueError) ∧
      (∀ err, (c.ListManifestWorks clusterName).2 = some err → c.IsNotFound err = false →
        (removeClusterRbac c clusterName tr).1 =
            NewMultiLineAggregate (resultErrors (c.DeleteAll clusterName) ++ [err]) ∧
          (removeClusterRbac c clusterName tr).1 ≠ some requeueError) := by
  have hlen : (c.ListManifestWorks clusterName).1.length ≠ 0 := by
    intro h
    exact hworks (List.length_eq_zero.mp h)
  unfold removeClusterRbac
  simp only
  refine ⟨?_, by simp [Event.isRoleBindingCall], ?_, ?_⟩
  · split
    · rfl
    · rw [if_pos hlen]
  · intro hlist
    rcases hlist with hnone | ⟨err, hsome, hnf⟩
    · simp [hnone, hlen]
    · simp [hsome, hnf, hlen]
  · intro err hsome hnf
    simp [hsome, hnf, NewMultiLineAggregate, requeueError]

theorem removeClusterRbac_requeues_witness :
    (removeClusterRbac (exampleController joiningCluster [goStr "work1"]) (goStr "cluster1")
        []).2 =
        [Event.DeleteAll (goStr "cluster1"), Event.ListManifestWorks (goStr "cluster1")] ∧
      (removeClusterRbac (exampleController joiningCluster [goStr "work1"]) (goStr "cluster1")
          []).1 = some requeueError :=
  ⟨(removeClusterRbac_requeues (exampleController joiningCluster [goStr "work1"])
      (goStr "cluster1") [] (by decide)).1,
    (removeClusterRbac_requeues (exampleController joiningCluster [goStr "work1"])
      (goStr "cluster1") [] (by decide)).2.2.1 (Or.inl rfl)⟩

theorem lookup_mapSet (m : List (GoString × GoString)) (key value : GoString) :
    (mapSet m key value).lookup key = some value := by
  induction m with
  | nil => simp [mapSet, List.lookup]
  | cons entry m ih =>
    obtain ⟨k, v⟩ := entry
    by_cases hk : k = key
    · simp [mapSet, hk, List.lookup]
    · have hk' : (key == k) = false := by
        simp only [beq_eq_false_iff_ne, ne_eq]
        exact fun h => hk h.symm
      simp [mapSet, hk, List.lookup, hk', ih]

/-- The `Patch` calls of `sync` for a cluster that is neither deleting nor accepted: the one
call of `acceptCluster` when auto approval is enabled and the annotation is absent, none
otherwise. -/
theorem sync_patch_events (c : managedClusterController) (managedClusterName : GoString)
    (managedCluster : ManagedCluster)
    (hget : c.GetCluster managedClusterName = Except.ok managedCluster)
    (hlive : managedCluster.Deleting = false)
    (hdenied : managedCluster.HubAcceptsClient = false) :
    ((c.AutoApprovalEnabled = true ∧
        managedCluster.Annotations.lookup clusterAcceptedAnnotationKey = none) →
      (sync c managedClusterName).2 =
        [Event.Patch managedClusterName
          (goStr "\x7b\x22metadata\x22:\x7b\x22annotations\x22:\x7b\x22" ++
            clusterAcceptedAnnotationKey ++ goStr "\x22:\x22" ++ c.Now ++
            goStr "\x22\x7d\x7d,\x22spec\x22:\x7b\x22hubAcceptsClient\x22:true\x7d\x7d")]) ∧
      (¬ (c.AutoApprovalEnabled = true ∧
          managedCluster.Annotations.lookup clusterAcceptedAnnotationKey = none) →
        ∀ e ∈ (sync c managedClusterName).2, e.isPatch = false) := by
  have hsync : sync c managedClusterName = syncNotAccepted c managedClusterName managedCluster := by
    unfold sync
    simp [hget, hlive, hdenied]
  rw [hsync]
  unfold syncNotAccepted
  constructor
  · intro hauto
    rw [if_pos hauto]
    simp [acceptCluster]
  · intro hauto
    rw [if_neg hauto]
    split
    · simp
    · cases c.Cleanup managedCluster with
      | some err => simp [Event.isPatch]
      | none =>
        simp only
        obtain ⟨added, hadd, hno⟩ := removeClusterRbac_log c managedClusterName
          ([Event.Eventf (goStr "ManagedClusterDenied")
            (goStr "managed cluster " ++ managedClusterName ++
              goStr " is denied by hub cluster admin")] ++
            [Event.Cleanup managedClusterName])
        rcases hres : removeClusterRbac c managedClusterName
          ([Event.Eventf (goStr "ManagedClusterDenied")
            (goStr "managed cluster " ++ managedClusterName ++
              goStr " is denied by hub cluster admin")] ++
            [Event.Cleanup managedClusterName]) with ⟨err, tr1⟩
        rw [hres] at hadd
        simp only at hadd
        have htr1 : ∀ e ∈ tr1, e.isPatch = false := by
          rw [hadd]
          intro e he
          rcases List.mem_append.mp he with he | he
          · simp at he
            rcases he with he | he <;> simp [he, Event.isPatch]
          · exact hno e he
        cases err with
        | some e => exact htr1
        | none =>
          simp only
          split
          · intro e he
            rcases List.mem_append.mp he with he | he
            · exact htr1 e he
            · simp at he
              simp [he, Event.isPatch]
          · intro e he
            rcases List.mem_append.mp he with he | he
            · exact htr1 e he
            · simp at he
              simp [he, Event.isPatch]

/-- C22: in `sync`, for a cluster that is not deleting and has `HubAcceptsClient` false, the
`Patch` of `acceptCluster` is issued exactly when auto approval is enabled and the annotation
`automatically-accepted-on` is absent; the patch is the merge patch that sets this annotation to
the current time together with `hubAcceptsClient` true; and once that patch has been applied, a
cluster that is denied again (`HubAcceptsClient` false) gets no such `Patch` from any later
`sync`. -/
theorem sync_auto_accept (c : managedClusterController) (managedClusterName : GoString)
    (managedCluster : ManagedCluster)
    (hget : c.GetCluster managedClusterName = Except.ok managedCluster)
    (hlive : managedCluster.Deleting = false)
    (hdenied : managedCluster.HubAcceptsClient = false) :
    ((∃ e ∈ (sync c managedClusterName).2, e.isPatch = true) ↔
        (c.AutoApprovalEnabled = true ∧
          managedCluster.Annotations.lookup clusterAcceptedAnnotationKey = none)) ∧
      (∀ e ∈ (sync c managedClusterName).2, e.isPatch = true →
        e = Event.Patch managedClusterName
          (goStr ("\x7b\x22metadata\x22:\x7b\x22annotations\x22:\x7b\x22" ++
              "open-cluster-management.io/automatically-accepted-on\x22:\x22") ++ c.Now ++
            goStr "\x22\x7d\x7d,\x22spec\x22:\x7b\x22hubAcceptsClient\x22:true\x7d\x7d")) ∧
      (∀ acceptedTime,
        (acceptPatchApplied managedCluster acceptedTime).HubAcceptsClient = true ∧
          (acceptPatchApplied managedCluster acceptedTime).Annotations.lookup
            clusterAcceptedAnnotationKey = some acceptedTime) ∧
      (∀ (later : managedClusterController) (acceptedTime : GoString),
        later.GetCluster managedClusterName =
            Except.ok
              { acceptPatchApplied managedCluster acceptedTime with HubAcceptsClient := false } →
          ∀ e ∈ (sync later managedClusterName).2, e.isPatch = false) := by
  obtain ⟨hyes, hno⟩ := sync_patch_events c managedClusterName managedCluster hget hlive hdenied
  have hlit : goStr ("\x7b\x22metadata\x22:\x7b\x22annotations\x22:\x7b\x22" ++
        "open-cluster-management.io/automatically-accepted-on\x22:\x22") =
      goStr "\x7b\x22metadata\x22:\x7b\x22annotations\x22:\x7b\x22" ++
        clusterAcceptedAnnotationKey ++ goStr "\x22:\x22" := by
    decide
  refine ⟨⟨?_, ?_⟩, ?_, ?_, ?_⟩
  · rintro ⟨e, he, hp⟩
    by_contra hauto
    have := hno hauto e he
    rw [hp] at this
    cases this
  · intro hauto
    rw [hyes hauto]
    exact ⟨_, List.mem_singleton.mpr rfl, rfl⟩
  · intro e he hp
    by_cases hauto : c.AutoApprovalEnabled = true ∧
        managedCluster.Annotations.lookup clusterAcceptedAnnotationKey = none
    · rw [hyes hauto] at he
      rw [List.mem_singleton.mp he, hlit]
    · have := hno hauto e he
      rw [hp] at this
      cases this
  · intro acceptedTime
    exact ⟨rfl, lookup_mapSet _ _ _⟩
  · intro later acceptedTime hlater
    refine (sync_patch_events later managedClusterName _ hlater hlive rfl).2 ?_
    rintro ⟨_, hnone⟩
    have hsome := lookup_mapSet managedCluster.Annotations clusterAcceptedAnnotationKey
      acceptedTime
    simp only [acceptPatchApplied] at hnone
    rw [hsome] at hnone
    cases hnone

theorem sync_auto_accept_witness :
    ((∃ e ∈ (sync (exampleController joiningCluster []) (goStr "cluster1")).2,
          e.isPatch = true) ↔
        ((exampleController joiningCluster []).AutoApprovalEnabled = true ∧
          joiningCluster.Annotations.lookup clusterAcceptedAnnotationKey = none)) ∧
      (∀ e ∈ (sync (exampleController joiningCluster []) (goStr "cluster1")).2,
        e.isPatch = true →
        e = Event.Patch (goStr "cluster1")
          (goStr ("\x7b\x22metadata\x22:\x7b\x22annotations\x22:\x7b\x22" ++
              "open-cluster-management.io/automatically-accepted-on\x22:\x22") ++
            (exampleController joiningCluster []).Now ++
            goStr "\x22\x7d\x7d,\x22spec\x22:\x7b\x22hubAcceptsClient\x22:true\x7d\x7d")) ∧
      (∀ acceptedTime,
        (acceptPatchApplied joiningCluster acceptedTime).HubAcceptsClient = true ∧
          (acceptPatchApplied joiningCluster acceptedTime).Annotations.lookup
            clusterAcceptedAnnotationKey = some acceptedTime) ∧
      (∀ (later : managedClusterController) (acceptedTime : GoString),
        later.GetCluster (goStr "cluster1") =
            Except.ok
              { acceptPatchApplied joiningCluster acceptedTime with HubAcceptsClient := false } →
          ∀ e ∈ (sync later (goStr "cluster1")).2, e.isPatch = false) :=
  sync_auto_accept (exampleController joiningCluster []) (goStr "cluster1") joiningCluster
    rfl rfl rfl

end OCM.HubRegistration
